import Mathlib

/-!
Verification of the meeting-summarizer job pipeline.

The development shallowly embeds the asynchronous job pipeline of
`server.py` together with the analysis-stage code it invokes
(`transcription.py`, `summarization.py`, `search.py`).  Python strings that
the summarizer manipulates character by character are modelled as
`List Char`; timestamps (`time.time()` floats) are modelled as rationals;
Python `int` is `Int`.  External collaborators (the filesystem, FFmpeg,
the AssemblyAI SDK, NLTK tokenizers, sklearn vectors, VADER sentiment)
are modelled as explicit oracle parameters, and the control flow around
them is translated from the source.  A Python function that can raise is
embedded as a function into `Except`.
-/

namespace MeetingPipeline

/-- Python strings manipulated character by character. -/
abbrev PyStr := List Char

/-- Convert a Lean string literal to the `PyStr` model. -/
def toPy (s : String) : PyStr := s.data

/-- The sentiment report returned by `analyze_sentiment` (sentiment.py).
It is a heterogeneous dict the pipeline only stores and returns, so it is
modelled as an opaque rendered value. -/
abbrev SentimentV := String

/-- The `results` dict written by `process_audio_task` (server.py lines
157-161).  `transcript` is the AssemblyAI `transcript.text`, which may be
`None`, hence `Option`. -/
structure ResultsV where
  transcript : Option PyStr
  summary : PyStr
  sentiment : SentimentV
deriving DecidableEq, Repr

/-- One entry of the `job_status` dict (server.py lines 272-280). -/
structure JobRecord where
  progress : Int
  message : String
  created_at : ℚ
  updated_at : ℚ
  complete : Bool
  error : Option String
  results : Option ResultsV
deriving DecidableEq, Repr

/-- The `job_status` dict: a Python dict modelled as an association list in
insertion order (keys are unique in an actual dict). -/
abbrev Registry := List (String × JobRecord)

/-- Dict lookup, `job_status[job_id]` read side / `job_id in job_status`. -/
def lookup (reg : Registry) (id : String) : Option JobRecord :=
  match reg with
  | [] => none
  | (k, v) :: rest => if k = id then some v else lookup rest id

/-- Mutate the record stored under `id` in place (Python mutates the dict
value object); other entries are untouched. -/
def setEntry : Registry → String → (JobRecord → JobRecord) → Registry
  | [], _, _ => []
  | (k, v) :: rest, id, f =>
    (if k = id then (k, f v) else (k, v)) :: setEntry rest id f

/-- `job_status[job_id] = record`: Python dict assignment (replaces an
existing key, appends a new one). -/
def dictInsert (reg : Registry) (id : String) (v : JobRecord) : Registry :=
  if (lookup reg id).isSome then setEntry reg id (fun _ => v) else reg ++ [(id, v)]

/-- `del job_status[job_id]` (server.py line 339); with unique keys this
removes exactly the entry keyed `id`. -/
def pyDel (reg : Registry) (id : String) : Registry :=
  reg.filter (fun kv => kv.1 ≠ id)

/-- Python truthiness of an optional string field: `None` and `""` are
falsy, every other string is truthy. -/
def pyTruthyStr : Option String → Bool
  | none => false
  | some s => s ≠ ""

/-- server.py `update_status` (lines 78-85): writes progress, message and
`updated_at` only when `job_id in job_status`; silent no-op otherwise.
`now` stands for the `time.time()` call. -/
def update_status (reg : Registry) (job_id : String) (progress : Int)
    (message : String) (now : ℚ) : Registry :=
  if (lookup reg job_id).isSome then
    setEntry reg job_id
      (fun r => { r with progress := progress, message := message, updated_at := now })
  else reg

/-- server.py line 156, `job_status[job_id]["complete"] = True`: an
unguarded dict subscript, so it raises `KeyError` when the id is absent.
The error value is Python's `str` of the `KeyError`. -/
def setJobComplete (reg : Registry) (job_id : String) : Except String Registry :=
  if (lookup reg job_id).isSome then
    .ok (setEntry reg job_id (fun r => { r with complete := true }))
  else .error ("'" ++ job_id ++ "'")

/-- server.py lines 157-161, `job_status[job_id]["results"] = {...}`:
unguarded subscript, raises `KeyError` when the id is absent. -/
def setJobResults (reg : Registry) (job_id : String) (res : ResultsV) :
    Except String Registry :=
  if (lookup reg job_id).isSome then
    .ok (setEntry reg job_id (fun r => { r with results := some res }))
  else .error ("'" ++ job_id ++ "'")

/-- server.py line 168, `job_status[job_id]["error"] = error_message`:
unguarded subscript, raises `KeyError` when the id is absent. -/
def setJobError (reg : Registry) (job_id : String) (msg : String) :
    Except String Registry :=
  if (lookup reg job_id).isSome then
    .ok (setEntry reg job_id (fun r => { r with error := some msg }))
  else .error ("'" ++ job_id ++ "'")

instance {ε α : Type} [DecidableEq ε] [DecidableEq α] : DecidableEq (Except ε α)
  | .error a, .error b =>
    if h : a = b then isTrue (by rw [h])
    else isFalse (by intro hh; cases hh; exact h rfl)
  | .error _, .ok _ => isFalse (by intro h; cases h)
  | .ok _, .error _ => isFalse (by intro h; cases h)
  | .ok a, .ok b =>
    if h : a = b then isTrue (by rw [h])
    else isFalse (by intro hh; cases hh; exact h rfl)

/-- A FastAPI `HTTPException`. -/
structure HTTPErr where
  status_code : Int
  detail : String
deriving DecidableEq, Repr

/-- The three response shapes of `get_job_status` (server.py 297-314). -/
inductive StatusResponse where
  | errorShape (message : String) (error : String)
  | completeShape (results : Option ResultsV)
  | processingShape (progress : Int) (message : String)
deriving DecidableEq, Repr

/-- server.py `get_job_status` (lines 288-314). -/
def get_job_status (reg : Registry) (job_id : String) :
    Except HTTPErr StatusResponse :=
  match lookup reg job_id with
  | none => .error ⟨404, "Job not found"⟩
  | some status =>
    if pyTruthyStr status.error then
      .ok (.errorShape status.message (status.error.getD ""))
    else if status.complete then .ok (.completeShape status.results)
    else .ok (.processingShape status.progress status.message)

/-- The derived job state of a record, exactly as the branch order of
`get_job_status` determines it: a truthy `error` field means ERROR, else a
true `complete` flag means COMPLETE, and every other record is still
pending/running. -/
inductive JobState where
  | ERROR
  | COMPLETE
  | RUNNING
deriving DecidableEq, Repr

def recordState (r : JobRecord) : JobState :=
  if pyTruthyStr r.error then .ERROR
  else if r.complete then .COMPLETE
  else .RUNNING

/-- The snapshot shape dictated by a record's state (spec section 4.5). -/
def shapeOf (r : JobRecord) : StatusResponse :=
  match recordState r with
  | .ERROR => .errorShape r.message (r.error.getD "")
  | .COMPLETE => .completeShape r.results
  | .RUNNING => .processingShape r.progress r.message

/-- Whether a status response carries a populated results object (the only
way a transcript, summary or sentiment value can reach a poller). -/
def exposesResults : StatusResponse → Bool
  | .completeShape (some _) => true
  | _ => false

/-- server.py `cleanup_old_jobs`, lines 331-336: the keys collected for
removal on one sweep tick. -/
def keysToRemove (reg : Registry) (now : ℚ) : List String :=
  (reg.filter (fun kv => decide (now - kv.2.created_at > 86400))).map (·.1)

/-- One sweep tick of the reaper (server.py lines 330-339): collect the
expired keys, then delete each. -/
def cleanup_sweep (reg : Registry) (now : ℚ) : Registry :=
  (keysToRemove reg now).foldl pyDel reg

/-- server.py `SummaryOptions` (lines 61-63): a plain pydantic model with
defaults and no range or enum validators. -/
structure SummaryOptions where
  num_summary_points : Int := 5
  summary_style : String := "Bullets"
deriving DecidableEq, Repr

/-- The `options` form field as `get_options` (server.py 69-76) sees it
after `json.loads` and pydantic validation:
* `absent`: the field is `None` or the empty string (Python falsy);
* `invalidJson`: `json.loads` raised;
* `notSchema`: the JSON parsed but `SummaryOptions(**dict)` raised
  (not an object, or a field of an uncoercible type);
* `parsed`: a JSON object pydantic accepts — present fields override the
  defaults, extra keys are ignored. -/
inductive OptionsForm where
  | absent
  | invalidJson
  | notSchema
  | parsed (num_summary_points : Option Int) (summary_style : Option String)
deriving DecidableEq, Repr

/-- server.py `get_options` (lines 69-76): absent or unparsable options
silently fall back to the defaults; parsed values pass through with no
bounds check. -/
def get_options : OptionsForm → SummaryOptions
  | .parsed n s => ⟨n.getD 5, s.getD "Bullets"⟩
  | _ => {}

/-- The recognised extensions list of server.py line 215. -/
def audioExts : List String :=
  ["mp3", "wav", "m4a", "flac", "aac", "ogg", "mp4", "wma"]

/-- Python `str.split(c)` for a one-character separator: splits on every
occurrence, keeping empty pieces. -/
def splitChar (sep : Char) : List Char → List (List Char)
  | [] => [[]]
  | c :: rest =>
    if c = sep then [] :: splitChar sep rest
    else
      match splitChar sep rest with
      | [] => [[c]]
      | p :: ps => (c :: p) :: ps

/-- Python `str.lower()` on a Lean `String` (ASCII approximation). -/
def pyLowerStr (s : String) : String := ⟨s.data.map Char.toLower⟩

/-- server.py lines 217-234: extension from the content type's subtype. -/
def extFromContentType (content_type : String) : String :=
  if content_type ≠ "" ∧ content_type.data.contains '/' then
    let sub : String := ⟨(splitChar '/' content_type.data).getLastD []⟩
    if sub = "mpeg" ∨ sub = "mp3" then "mp3"
    else if sub = "wav" ∨ sub = "x-wav" ∨ sub = "wave" then "wav"
    else if sub = "aac" then "aac"
    else if sub = "ogg" ∨ sub = "vorbis" then "ogg"
    else if sub = "flac" then "flac"
    else "mp3"
  else "mp3"

/-- server.py lines 206-234: resolve the temp-file extension from the
filename, falling back to the content type, falling back to "mp3".  An
empty string models a missing filename/content type (Python falsy). -/
def resolveExtension (filename content_type : String) : String :=
  let ext0 : Option String :=
    if filename ≠ "" then
      let parts := splitChar '.' filename.data
      if parts.length > 1 then some (pyLowerStr ⟨parts.getLastD []⟩) else none
    else none
  match ext0 with
  | some e => if audioExts.contains e then e else extFromContentType content_type
  | none => extFromContentType content_type

/-- A background task handed to `background_tasks.add_task`
(server.py line 283). -/
structure ScheduledTask where
  temp_suffix : String
  job_id : String
  options : SummaryOptions
deriving DecidableEq, Repr

/-- What the submission endpoint leaves behind. -/
structure SubmitOutcome where
  response : Except HTTPErr String
  registry : Registry
  tasks : List ScheduledTask
deriving DecidableEq, Repr

/-- The record `process_audio` creates (server.py lines 272-280). -/
def freshRecord (now : ℚ) : JobRecord :=
  { progress := 0, message := "Job started", created_at := now, updated_at := now,
    complete := false, error := none, results := none }

/-- server.py `process_audio` (lines 179-286).  `new_job_id` stands for the
generated uuid, `now` for `time.time()`, `file_content` for the uploaded
bytes.  A zero-byte payload is rejected with 400 before the registry write
and before the background task is scheduled; the content-type warning, the
python-magic probe and `validate_audio_file` only print and never reject
(lines 194-196, 248-269). -/
def process_audio (reg : Registry) (tasks : List ScheduledTask)
    (file_content : List Nat) (filename content_type : String)
    (form : OptionsForm) (new_job_id : String) (now : ℚ) : SubmitOutcome :=
  let options := get_options form
  if file_content.length = 0 then
    { response := .error ⟨400, "File is empty (0 bytes)"⟩, registry := reg, tasks := tasks }
  else
    let ext := resolveExtension filename content_type
    { response := .ok new_job_id,
      registry := dictInsert reg new_job_id (freshRecord now),
      tasks := tasks ++ [⟨ext, new_job_id, options⟩] }

/-- The dict returned by the external `check_audio_file` diagnostic, as the
pipeline consumes it.  `errorEntry = none` models a dict without an
`"error"` key — which is what check_audio.py actually returns (its result
dict only has file_exists/file_size/mime_type/file_extension/readable/
issues) — so `audio_info["error"]` in transcription.py raises `KeyError`
while `audio_info.get("error")` in server.py yields `None`.
`errorEntry = some v` models a dict carrying the key with value `v`
(`none` for Python `None`).  `duration`, `sample_rate` and `channels` are
read with `.get(key, 0)`; their float formatting (`:.2f`) is abstracted by
`toString`. -/
structure AudioInfo where
  errorEntry : Option (Option String) := none
  duration : ℚ := 0
  sample_rate : Int := 0
  channels : Int := 0

/-- `audio_info.get("error")` (server.py line 102). -/
def getErrorKey (info : AudioInfo) : Option String :=
  match info.errorEntry with
  | none => none
  | some v => v

/-- Outcome of `transcriber.transcribe(...)` and the status check on it
(transcription.py lines 239-258). -/
inductive SdkResult where
  | raised (msg : String)
  | statusError (error_attr : Option String)
  | ok (text : Option PyStr)

/-- The external world one run of `transcribe_audio` observes. -/
structure TranscribeEnv where
  file_exists : Bool
  file_size : Nat
  audio_info : AudioInfo
  convert : Except String Unit
  wav_info : AudioInfo
  sdk : SdkResult

/-- The message of the `10` status callback (transcription.py 188-193). -/
def transcribeCheckMsg (info : AudioInfo) (errval : Option String) : String :=
  if pyTruthyStr errval then
    "Converting audio to WAV format (original had issues: " ++ errval.getD "" ++ ")"
  else
    "Audio file looks valid: " ++ toString info.duration ++ "s, " ++
      toString info.sample_rate ++ "Hz, " ++ toString info.channels ++ " channel(s)"

/-- transcription.py `transcribe_audio` (lines 160-263), with the status
callback invocations collected in order as `(progress, message)` pairs.
The returned `Except` is the raised exception or `transcript.text`.  Note
`audio_info["error"]` (line 188) and `wav_info["error"]` (line 207) are
subscripts: on a dict without the key they raise `KeyError('error')`,
whose Python `str` is `'error'` in quotes. -/
def transcribe_audio (audio_path : String) (env : TranscribeEnv) :
    List (Int × String) × Except String (Option PyStr) :=
  let cb0 := [((5 : Int), "Preparing audio for transcription...")]
  if ¬ env.file_exists then
    (cb0 ++ [(0, "Audio file not found: " ++ audio_path)],
     .error ("Audio file not found: " ++ audio_path))
  else if env.file_size = 0 then
    (cb0 ++ [(0, "Audio file is empty (0 bytes)")],
     .error "Audio file is empty (0 bytes)")
  else
    let cb1 := cb0 ++ [(8, "Checking audio file format...")]
    match env.audio_info.errorEntry with
    | none => (cb1, .error "'error'")
    | some errval =>
      let cb2 := cb1 ++ [(10, transcribeCheckMsg env.audio_info errval)]
      match env.convert with
      | .error e =>
        (cb2 ++ [(0, "Audio conversion failed: " ++ e)],
         .error ("Failed to convert audio format: " ++ e))
      | .ok _ =>
        let cb3 := cb2 ++ [(15, "Audio converted to WAV format successfully")]
        match env.wav_info.errorEntry with
        | none => (cb3, .error "'error'")
        | some werr =>
          if pyTruthyStr werr then
            (cb3 ++ [(0, "WAV conversion produced invalid file: " ++ werr.getD "")],
             .error ("WAV conversion produced invalid file: " ++ werr.getD ""))
          else
            let cb4 := cb3 ++
              [(30, "Starting transcription with AssemblyAI SDK..."),
               (40, "Submitting audio for transcription...")]
            match env.sdk with
            | .raised m => (cb4 ++ [(0, "Transcription error: " ++ m)], .error m)
            | .statusError err =>
              let msg := "Transcription failed: " ++ err.getD "Unknown error"
              (cb4 ++ [(0, msg), (0, "Transcription error: " ++ msg)], .error msg)
            | .ok text =>
              (cb4 ++ [(100, "Transcription completed successfully!")], .ok text)

/-! ## String primitives used by the summarizer (summarization.py) -/

/-- Python `str.strip()`. -/
def pyStrip (s : PyStr) : PyStr :=
  ((s.dropWhile Char.isWhitespace).reverse.dropWhile Char.isWhitespace).reverse

/-- Python `str.lower()` (ASCII approximation of the unicode lowering). -/
def pyToLower (s : PyStr) : PyStr := s.map Char.toLower

/-- Python `str.split()` with no argument: split on whitespace runs,
dropping empty pieces. -/
def pySplitWhiteAux (acc : PyStr) : PyStr → List PyStr
  | [] => if acc = [] then [] else [acc.reverse]
  | c :: rest =>
    if c.isWhitespace then
      (if acc = [] then [] else [acc.reverse]) ++ pySplitWhiteAux [] rest
    else pySplitWhiteAux (c :: acc) rest

def pySplitWhite (s : PyStr) : List PyStr := pySplitWhiteAux [] s

/-- Python `str.split(sep)` for a non-empty separator `s0 :: srest`:
left-to-right, keeping empty pieces (`"".split(". ") == [""]`).
`fuel` bounds the recursion depth structurally (every step consumes at
least one character, so `fuel = s.length` suffices). -/
def splitSepFuel (s0 : Char) (srest : PyStr) : Nat → PyStr → List PyStr
  | _, [] => [[]]
  | 0, s => [s]
  | fuel + 1, c :: rest =>
    if (s0 :: srest).isPrefixOf (c :: rest) then
      [] :: splitSepFuel s0 srest fuel (rest.drop srest.length)
    else
      match splitSepFuel s0 srest fuel rest with
      | [] => [[c]]
      | p :: ps => (c :: p) :: ps

def pySplitOnAux (s0 : Char) (srest : PyStr) (s : PyStr) : List PyStr :=
  splitSepFuel s0 srest s.length s

/-- A stable insertion sort (`pyInsertBy le a l` puts `a` before the first
element `b` with `le a b`, so ties keep their original order, exactly like
Python's stable `sorted`). -/
def pyInsertBy {α : Type} (le : α → α → Bool) (a : α) : List α → List α
  | [] => [a]
  | b :: l => if le a b then a :: b :: l else b :: pyInsertBy le a l

def pySortBy {α : Type} (le : α → α → Bool) : List α → List α
  | [] => []
  | a :: l => pyInsertBy le a (pySortBy le l)

/-- Python `"sep".join(items)`. -/
def pyJoin (sep : PyStr) : List PyStr → PyStr
  | [] => []
  | [x] => x
  | x :: y :: rest => x ++ sep ++ pyJoin sep (y :: rest)

/-- `"• " + "\n• ".join(items)`: the rendering every summarize_text path
uses for its selected sentences. -/
def renderBullets (items : List PyStr) : PyStr :=
  '•' :: ' ' :: pyJoin ('\n' :: '•' :: ' ' :: []) items

/-- Python `l[:n]` (a negative `n` counts from the end). -/
def pySliceTo {α : Type} (l : List α) (n : Int) : List α :=
  if 0 ≤ n then l.take n.toNat else l.take ((l.length : Int) + n).toNat

/-- `range(0, stop, step)` for `step ≥ 1`. -/
def pyRange0 (stop step : Nat) : List Nat :=
  (List.range stop).filter (fun i => i % step = 0)

/-- `range(a, b)` over Python ints. -/
def pyRangeInt (a b : Int) : List Int :=
  (List.range (b - a).toNat).map (fun i => a + Int.ofNat i)

/-- `summary.replace("• ", "")` (server.py line 144): left-to-right
non-overlapping removal of the two-character bullet marker. -/
def removeBulletSpace : PyStr → PyStr
  | [] => []
  | '•' :: ' ' :: rest => removeBulletSpace rest
  | c :: rest => c :: removeBulletSpace rest

/-- `paragraph.replace("\n", " ")` (server.py line 145). -/
def newlineToSpace (s : PyStr) : PyStr := s.map (fun c => if c = '\n' then ' ' else c)

/-- The Paragraph-style conversion of server.py lines 143-146. -/
def paragraphConvert (s : PyStr) : PyStr := newlineToSpace (removeBulletSpace s)

/-- Number of bullet characters in a string. -/
def bulletCount (s : PyStr) : Nat := s.count '•'

/-- A string without the bullet character. -/
def bulletFree (s : PyStr) : Bool := ¬ s.contains '•'

/-- Every bullet character is immediately followed by a space (so that
`replace("• ", "")` removes all of them). -/
def bulletsSpaced : PyStr → Bool
  | [] => true
  | '•' :: rest =>
    match rest with
    | ' ' :: rest2 => bulletsSpaced rest2
    | _ => false
  | _ :: rest => bulletsSpaced rest

/-! ## summarization.py -/

/-- The hard-coded stop-word fallback of summarization.py lines 71-86,
used when `stopwords.words('english')` raises. -/
def fallbackStopwordsS : List String :=
  ["i", "me", "my", "myself", "we", "our", "ours", "ourselves",
   "you", "your", "yours", "yourself", "yourselves", "he", "him",
   "his", "himself", "she", "her", "hers", "herself", "it", "its",
   "itself", "they", "them", "their", "theirs", "themselves", "what",
   "which", "who", "whom", "this", "that", "these", "those", "am",
   "is", "are", "was", "were", "be", "been", "being", "have", "has",
   "had", "having", "do", "does", "did", "doing", "a", "an", "the",
   "and", "but", "if", "or", "because", "as", "until", "while", "of",
   "at", "by", "for", "with", "about", "against", "between", "into",
   "through", "during", "before", "after", "above", "below", "to",
   "from", "up", "down", "in", "out", "on", "off", "over", "under",
   "again", "further", "then", "once", "here", "there", "when",
   "where", "why", "how", "all", "any", "both", "each", "few",
   "more", "most", "other", "some", "such", "no", "nor", "not",
   "only", "own", "same", "so", "than", "too", "very", "s", "t",
   "can", "will", "just", "don", "should", "now"]

def fallbackStopwords : List PyStr := fallbackStopwordsS.map toPy

/-- The NLTK collaborators `summarize_text` consumes.  A tokenizer
returning `none` models the corresponding call raising. -/
structure NltkEnv where
  sent_tokenize : PyStr → Option (List PyStr)
  word_tokenize : PyStr → Option (List PyStr)
  stopwords_ok : Bool
  stopwords : List PyStr

/-- Python `str.isalnum()` (ASCII approximation): non-empty and all
alphanumeric. -/
def pyIsAlnum (w : PyStr) : Bool := w ≠ [] ∧ w.all Char.isAlphanum

/-- `word_frequencies[word] = word_frequencies.get(word, 0) + 1`. -/
def incrKey (freqs : List (PyStr × Nat)) (w : PyStr) : List (PyStr × Nat) :=
  if (freqs.lookup w).isSome then
    freqs.map (fun p => if p.1 = w then (p.1, p.2 + 1) else p)
  else freqs ++ [(w, 1)]

/-- The word-frequency table of summarization.py lines 89-100. -/
def buildFreqs (stop : List PyStr) (wordsOf : PyStr → List PyStr)
    (sentences : List PyStr) : List (PyStr × Nat) :=
  sentences.foldl
    (fun fs s => (wordsOf s).foldl
      (fun fs w => if ¬ stop.contains w ∧ pyIsAlnum w then incrKey fs w else fs) fs)
    []

def maxVal (l : List (PyStr × Nat)) : Nat := (l.map (·.2)).foldl max 0

/-- The in-place normalization of lines 111-113. -/
def normFreqs (freqs : List (PyStr × Nat)) : List (PyStr × ℚ) :=
  let m := maxVal freqs
  freqs.map (fun p => (p.1, (p.2 : ℚ) / (m : ℚ)))

/-- `sentence_scores[i] = sentence_scores.get(i, 0) + word_frequencies[word]`. -/
def addScore (sc : List (Nat × ℚ)) (i : Nat) (v : ℚ) : List (Nat × ℚ) :=
  if (sc.lookup i).isSome then
    sc.map (fun p => if p.1 = i then (p.1, p.2 + v) else p)
  else sc ++ [(i, v)]

/-- The sentence-score table of summarization.py lines 116-126. -/
def buildScores (nf : List (PyStr × ℚ)) (wordsOf : PyStr → List PyStr)
    (sentences : List PyStr) : List (Nat × ℚ) :=
  sentences.enum.foldl
    (fun sc is => (wordsOf is.2).foldl
      (fun sc w => match nf.lookup w with
        | some v => addScore sc is.1 v
        | none => sc) sc)
    []

/-- `heapq.nlargest(n, sentence_scores, key=sentence_scores.get)`: the `n`
highest-scoring sentence indices, descending, ties in dict-iteration
(= insertion) order. -/
def nlargestIdx (n : Int) (scores : List (Nat × ℚ)) : List Nat :=
  ((pySortBy (fun a b => decide (b.2 ≤ a.2)) scores).take n.toNat).map (·.1)

/-- The ultra fallback of summarization.py lines 168-173. -/
def ultraFallback (t : PyStr) : PyStr :=
  if t.length > 500 then toPy "• " ++ t.take 500 ++ toPy "..."
  else toPy "• " ++ t

/-- The outer-`except` fallback of summarization.py lines 148-167, run on
the stripped transcript.  A `num_sentences` of 1 makes its
`len(sentences) // (num_sentences - 1)` raise `ZeroDivisionError`, caught
by the bare `except` into the ultra fallback. -/
def exceptFallback (transcript : PyStr) (num : Int) : PyStr :=
  if (pySplitOnAux '.' [' '] transcript).length ≤ 3 then
    renderBullets (pySplitOnAux '.' [' '] transcript)
  else if num = 1 then ultraFallback transcript
  else
    renderBullets ([(pySplitOnAux '.' [' '] transcript).headD []] ++
      (pyRangeInt 1 (num - 1)).filterMap (fun i =>
        if i * max 1 (Int.fdiv (pySplitOnAux '.' [' '] transcript).length (num - 1))
            < ((pySplitOnAux '.' [' '] transcript).length : Int) then
          some ((pySplitOnAux '.' [' '] transcript).getD
            (i * max 1 (Int.fdiv (pySplitOnAux '.' [' '] transcript).length
              (num - 1))).toNat [])
        else none) ++
      (if (pySplitOnAux '.' [' '] transcript).length > 1 then
        [(pySplitOnAux '.' [' '] transcript).getLastD []] else []))

/-- summarization.py line 67-86: `stopwords.words('english')`, or the
hard-coded fallback list when it raises. -/
def stopOfEnv (nltk : NltkEnv) : List PyStr :=
  if nltk.stopwords_ok then nltk.stopwords else fallbackStopwords

/-- `word_tokenize(sentence.lower())` with the `sentence.lower().split()`
fallback when tokenization raises (lines 93-96 and 119-122). -/
def wordsOfEnv (nltk : NltkEnv) (s : PyStr) : List PyStr :=
  match nltk.word_tokenize (pyToLower s) with
  | some ws => ws
  | none => pySplitWhite (pyToLower s)

/-- The empty-word-frequencies fallback of lines 104-108 (reached only
with `num ≠ 0`; `num = 0` raises `ZeroDivisionError` instead). -/
def freqFallback (sentences : List PyStr) (num : Int) : PyStr :=
  renderBullets ((pySliceTo
    (pyRange0 sentences.length (max 1 (Int.fdiv sentences.length num)).toNat)
    num).map (fun i => sentences.getD i []))

/-- The empty-sentence-scores fallback of lines 130-136 (reached only
with `num ≠ 1`).  A zero modulus `len // (num-1) + 1` raises
`ZeroDivisionError`, caught by the outer `except` into
`exceptFallback`. -/
def scoreFallback (transcript : PyStr) (sentences : List PyStr) (num : Int) : PyStr :=
  if Int.fdiv sentences.length (num - 1) + 1 = 0 then exceptFallback transcript num
  else
    renderBullets (((0 : Int) ::
      (if sentences.length > 1 then
        pySliceTo ((pyRangeInt 1 sentences.length).filter
          (fun i => Int.fmod i (Int.fdiv sentences.length (num - 1) + 1) = 0))
          (num - 1)
      else [])).map (fun i => sentences.getD i.toNat []))

/-- The main extractive path of lines 138-146: the `num` highest-scoring
sentence indices, re-sorted into document order, rendered as bullets. -/
def mainSummary (sentences : List PyStr) (scores : List (Nat × ℚ)) (num : Int) : PyStr :=
  renderBullets ((pySortBy (fun a b => decide (a ≤ b)) (nlargestIdx num scores)).map
    (fun i => sentences.getD i []))

/-- summarization.py `summarize_text` (lines 35-173).  The input is
`Option PyStr` because the pipeline can hand it `transcript.text = None`
(the `isinstance` guard of line 50).  Paths that Python reaches through a
`ZeroDivisionError` inside the main `try` (a `num_sentences` of 0 in the
first fallback, of 1 in the second, or a zero modulus) are embedded as
explicit branches into `exceptFallback`. -/
def summarize_text (nltk : NltkEnv) (transcript? : Option PyStr)
    (num_sentences : Int) : PyStr :=
  match transcript? with
  | none => toPy "• Invalid transcript format"
  | some raw =>
    if pyStrip raw = [] then toPy "• No transcript content to summarize"
    else
      match nltk.sent_tokenize (pyStrip raw) with
      | none => exceptFallback (pyStrip raw) num_sentences
      | some sentences =>
        if (sentences.length : Int) ≤ num_sentences then renderBullets sentences
        else
          if buildFreqs (stopOfEnv nltk) (wordsOfEnv nltk) sentences = [] then
            if num_sentences = 0 then exceptFallback (pyStrip raw) num_sentences
            else freqFallback sentences num_sentences
          else
            if buildScores
                (normFreqs (buildFreqs (stopOfEnv nltk) (wordsOfEnv nltk) sentences))
                (wordsOfEnv nltk) sentences = [] then
              if num_sentences = 1 then exceptFallback (pyStrip raw) num_sentences
              else scoreFallback (pyStrip raw) sentences num_sentences
            else
              mainSummary sentences
                (buildScores
                  (normFreqs (buildFreqs (stopOfEnv nltk) (wordsOfEnv nltk) sentences))
                  (wordsOfEnv nltk) sentences)
                num_sentences

/-! ## The pipeline executor (server.py `process_audio_task`) -/

/-- Everything external one run of `process_audio_task` observes:
`check1` is the `check_audio_file` call of server.py line 96,
`convertServer` the `convert_audio_to_wav` call of line 114, `tenv` the
world seen by the `transcribe_audio` stage, `nltk` the tokenizers used by
the (embedded) summarizer, `sentiment` the `analyze_sentiment`
collaborator (sentiment.py catches every exception and returns a dict, so
it is total), and `clock` the successive `time.time()` readings.
`index_transcript` (search.py) validates its input, catches its own
exceptions and returns a bool the executor ignores; its side effect is on
the search singleton, not on the job registry, so it does not appear
here. -/
structure ExecEnv where
  check1 : AudioInfo
  convertServer : Except String Unit
  wav_path : String
  tenv : TranscribeEnv
  nltk : NltkEnv
  sentiment : Option PyStr → SentimentV
  clock : Nat → ℚ

/-- The message of the executor's `10` update (server.py lines 102-108). -/
def serverCheckMsg (info : AudioInfo) : String :=
  let v := getErrorKey info
  if pyTruthyStr v then "Audio needs conversion: " ++ v.getD ""
  else
    "Audio file: " ++ toString info.duration ++ "s, " ++
      toString info.sample_rate ++ "Hz, " ++ toString info.channels ++ " channel(s)"

/-- Apply a sequence of `update_status` calls in order, reading the clock
once per call. -/
def applyUpdates (reg : Registry) (job_id : String) (clock : Nat → ℚ) (i0 : Nat) :
    List (Int × String) → Registry
  | [] => reg
  | (p, m) :: rest =>
    applyUpdates (update_status reg job_id p m (clock i0)) job_id clock (i0 + 1) rest

/-- The data the success path stores as `results` (server.py 157-161). -/
structure StageData where
  transcript : Option PyStr
  summary : PyStr
  sentiment : SentimentV
deriving DecidableEq, Repr

/-- The `try` body of `process_audio_task` (server.py lines 89-161 up to
the final dict writes): the ordered `update_status` calls it makes (the
transcription stage's callback invocations included, since
`status_callback` forwards straight into `update_status`) and either the
stage data to store or the message of the exception that terminated the
pipeline. -/
def execOutcome (options : SummaryOptions) (env : ExecEnv) :
    List (Int × String) × Except String StageData :=
  let evs0 := [((5 : Int), "Checking audio file format..."),
               (10, serverCheckMsg env.check1),
               (15, "Converting audio to proper format...")]
  match env.convertServer with
  | .error e =>
    (evs0 ++ [(0, "Audio conversion failed: " ++ e)],
     .error ("Audio conversion failed: " ++ e))
  | .ok _ =>
    let evs1 := evs0 ++ [(20, "Audio converted successfully"),
                         (25, "Starting transcription...")]
    let tr := transcribe_audio env.wav_path env.tenv
    match tr.2 with
    | .error m => (evs1 ++ tr.1, .error m)
    | .ok transcript =>
      let evs2 := evs1 ++ tr.1 ++ [(80, "Transcription complete. Generating summary...")]
      let summary0 := summarize_text env.nltk transcript options.num_summary_points
      let summary :=
        if options.summary_style = "Paragraph" then paragraphConvert summary0
        else summary0
      let evs3 := evs2 ++ [(90, "Analyzing sentiment...")]
      let senti := env.sentiment transcript
      (evs3 ++ [(100, "Processing complete")], .ok ⟨transcript, summary, senti⟩)

/-- What one executor run leaves behind: the ordered `update_status`
calls, the exception (if any) that escaped the whole task, and the final
registry. -/
structure ExecResult where
  trace : List (Int × String)
  raised : Option String
  final : Registry
deriving DecidableEq, Repr

/-- The `except Exception` branch of server.py lines 163-168: a final
`update_status(job_id, 0, "Error: ...")` (a silent no-op if the id was
evicted) followed by the unguarded `job_status[job_id]["error"]` write,
whose `KeyError` escapes the task. -/
def exceptBranch (evs : List (Int × String)) (reg : Registry) (job_id : String)
    (m : String) (clock : Nat → ℚ) : ExecResult :=
  let ev := ((0 : Int), "Error: " ++ m)
  let reg2 := applyUpdates reg job_id clock evs.length [ev]
  match setJobError reg2 job_id m with
  | .ok reg3 => ⟨evs ++ [ev], none, reg3⟩
  | .error ke => ⟨evs ++ [ev], some ("KeyError: " ++ ke), reg2⟩

/-- server.py `process_audio_task` (lines 87-177).  The success path's
final writes `job_status[job_id]["complete"]` / `["results"]` are inside
the `try`, so their `KeyError` (after an eviction) lands in the `except`
branch, whose own write then re-raises.  Temp-file cleanup (lines
169-177) touches no registry state. -/
def process_audio_task (reg0 : Registry) (job_id : String)
    (options : SummaryOptions) (env : ExecEnv) : ExecResult :=
  let r := execOutcome options env
  let reg1 := applyUpdates reg0 job_id env.clock 0 r.1
  match r.2 with
  | .ok data =>
    match setJobComplete reg1 job_id with
    | .ok reg2 =>
      match setJobResults reg2 job_id ⟨data.transcript, data.summary, data.sentiment⟩ with
      | .ok reg3 => ⟨r.1, none, reg3⟩
      | .error ke => exceptBranch r.1 reg2 job_id ("'" ++ ke ++ "'") env.clock
    | .error ke => exceptBranch r.1 reg1 job_id ("'" ++ ke ++ "'") env.clock
  | .error m => exceptBranch r.1 reg1 job_id m env.clock

/-- The progress values an executor run writes, in order. -/
def progressTrace (r : ExecResult) : List Int := r.trace.map (·.1)

/-- A non-decreasing sequence of progress values. -/
def nonDecreasing : List Int → Bool
  | [] => true
  | [_] => true
  | a :: b :: rest => a ≤ b && nonDecreasing (b :: rest)

/-! ## search.py -/

/-- The state of the `MeetingSearch` singleton as `search` reads it:
`sentences` is `self.sentences`, and `vectorized` whether both
`self.vectorizer` and `self.sentence_vectors` are set (they are set and
cleared together, `index_transcript` lines 60-68). -/
structure MeetingSearchState where
  sentences : List String
  vectorized : Bool

/-- Lines 100-103 of search.py: `np.argsort(similarity)[-num_results:]
[::-1]` followed by the positive-score filter over the top indices.
`np.argsort` is modelled by a stable sort on (index, score) pairs
(numpy's tie order is unspecified; no property below depends on it). -/
def searchHits (sentences : List String) (sims : List ℚ) (num_results : Int) :
    List (String × ℚ) :=
  let order := (pySortBy (fun a b => decide (a.2 ≤ b.2)) sims.enum).map (·.1)
  let top := (order.drop (order.length - num_results.toNat)).reverse
  top.filterMap
    (fun i => if 0 < sims.getD i 0 then
      some (sentences.getD i "", sims.getD i 0) else none)

/-- search.py `MeetingSearch.search` (lines 70-110).  The TF-IDF
transform and dot product are external (sklearn/numpy); `sim` is their
outcome: the similarity score of each sentence, or the exception the
`try` caught. -/
def pySearch (st : MeetingSearchState) (query : String) (num_results : Int)
    (sim : Except String (List ℚ)) : List (String × ℚ) :=
  if ¬ st.vectorized ∨ st.sentences = [] then
    [("No transcript has been indexed yet.", 0)]
  else if pyStrip query.data = [] then [("Invalid search query.", 0)]
  else
    match sim with
    | .error e => [("Search error: " ++ e, 0)]
    | .ok sims =>
      if searchHits st.sentences sims num_results = [] then
        [("No matching results found.", 0)]
      else searchHits st.sentences sims num_results

/-- The `/search/` endpoint (server.py lines 316-319): wraps each
`(sentence, score)` pair into `{sentence, score}`. -/
structure SearchItem where
  sentence : String
  score : ℚ
deriving DecidableEq, Repr

def search_transcript (st : MeetingSearchState) (query : String)
    (sim : Except String (List ℚ)) : List SearchItem :=
  (pySearch st query 5 sim).map (fun p => ⟨p.1, p.2⟩)

/-! ## Concrete environments used to evaluate the embedding -/

/-- A run against the repository as committed: `check_audio_file` returns
a dict without an `"error"` key (`errorEntry := none`), the conversions
succeed, the SDK would answer — but `audio_info["error"]` in
transcription.py raises first. -/
def faithfulEnv : ExecEnv :=
  { check1 := {}, convertServer := .ok (), wav_path := "w.wav",
    tenv := { file_exists := true, file_size := 10, audio_info := {},
              convert := .ok (), wav_info := {}, sdk := .ok (some (toPy "hi")) },
    nltk := ⟨fun s => some [s], fun s => some [s], true, []⟩,
    sentiment := fun _ => "S", clock := fun _ => 0 }

/-- The transcription-stage world of a fully successful run (the
check-audio dicts carry an `"error"` key with value `None`). -/
def tenvSuccess : TranscribeEnv :=
  { file_exists := true, file_size := 10, audio_info := { errorEntry := some none },
    convert := .ok (), wav_info := { errorEntry := some none },
    sdk := .ok (some (toPy "hi")) }

/-- A fully successful executor run. -/
def successEnv : ExecEnv :=
  { faithfulEnv with tenv := tenvSuccess }

/-- A run whose transcription stage raises an exception whose `str` is the
empty string. -/
def emptyErrEnv : ExecEnv :=
  { faithfulEnv with tenv := { tenvSuccess with sdk := .raised "" } }

/-- A run whose transcription stage raises with message "boom". -/
def boomEnv : ExecEnv :=
  { faithfulEnv with tenv := { tenvSuccess with sdk := .raised "boom" } }

/-- A one-sentence tokenizer (what NLTK does on text without sentence
breaks) and whitespace word tokenization. -/
def nltkSimple : NltkEnv :=
  ⟨fun s => some [s], fun s => some (pySplitWhite s), true, []⟩

/-- A successful run whose transcript contains a bare bullet character. -/
def bulletEnv : ExecEnv :=
  { faithfulEnv with
    tenv := { tenvSuccess with sdk := .ok (some (toPy "see•item")) },
    nltk := nltkSimple }

/-- A two-sentence tokenizer for the `"alpha beta. gamma delta."`
transcript. -/
def nltkTwo : NltkEnv :=
  ⟨fun _ => some [toPy "alpha beta.", toPy "gamma delta."],
   fun s => some (pySplitWhite s), true, []⟩

/-! ## Registry lemmas -/

theorem lookup_setEntry_self (reg : Registry) (id : String) (f : JobRecord → JobRecord) :
    lookup (setEntry reg id f) id = (lookup reg id).map f := by
  induction reg with
  | nil => rfl
  | cons kv rest ih =>
    obtain ⟨k, v⟩ := kv
    by_cases hk : k = id
    · subst hk
      rw [show setEntry ((k, v) :: rest) k f = (k, f v) :: setEntry rest k f by
        simp [setEntry]]
      simp [lookup]
    · rw [show setEntry ((k, v) :: rest) id f = (k, v) :: setEntry rest id f by
        simp [setEntry, hk]]
      simpa [lookup, hk] using ih

theorem lookup_update_status_self (reg : Registry) (id : String) (p : Int)
    (m : String) (now : ℚ) :
    lookup (update_status reg id p m now) id =
      (lookup reg id).map
        (fun r => { r with progress := p, message := m, updated_at := now }) := by
  unfold update_status
  cases h : lookup reg id with
  | none => simp [h]
  | some r => simp [h, lookup_setEntry_self]

theorem lookup_setJobError_self (reg : Registry) (id : String) (m : String)
    (r : JobRecord) (h : lookup reg id = some r) :
    setJobError reg id m = .ok (setEntry reg id (fun r => { r with error := some m })) := by
  unfold setJobError
  simp [h]

theorem lookup_applyUpdates_none (id : String) (clock : Nat → ℚ)
    (evs : List (Int × String)) :
    ∀ reg i, lookup reg id = none → lookup (applyUpdates reg id clock i evs) id = none := by
  induction evs with
  | nil => intro reg i h; simpa [applyUpdates] using h
  | cons ev rest ih =>
    intro reg i h
    obtain ⟨p, m⟩ := ev
    have h2 : lookup (update_status reg id p m (clock i)) id = none := by
      rw [lookup_update_status_self, h]; rfl
    simpa [applyUpdates] using ih _ _ h2

theorem lookup_applyUpdates_some (id : String) (clock : Nat → ℚ)
    (evs : List (Int × String)) :
    ∀ reg i r, lookup reg id = some r →
      ∃ r', lookup (applyUpdates reg id clock i evs) id = some r' ∧
        r'.results = r.results ∧ r'.complete = r.complete ∧
        r'.error = r.error ∧ r'.created_at = r.created_at := by
  induction evs with
  | nil => intro reg i r h; exact ⟨r, by simpa [applyUpdates] using h, rfl, rfl, rfl, rfl⟩
  | cons ev rest ih =>
    intro reg i r h
    obtain ⟨p, m⟩ := ev
    have h2 : lookup (update_status reg id p m (clock i)) id =
        some { r with progress := p, message := m, updated_at := clock i } := by
      rw [lookup_update_status_self, h]; rfl
    obtain ⟨r', hl, h1, h2', h3, h4⟩ := ih _ (i + 1) _ h2
    exact ⟨r', by simpa [applyUpdates] using hl, h1, h2', h3, h4⟩

theorem lookup_pyDel (reg : Registry) (k id : String) :
    lookup (pyDel reg k) id = if id = k then none else lookup reg id := by
  induction reg with
  | nil => simp [pyDel, lookup]
  | cons kv rest ih =>
    obtain ⟨k1, v⟩ := kv
    by_cases h1 : k1 = k
    · rw [show pyDel ((k1, v) :: rest) k = pyDel rest k by simp [pyDel, h1]]
      rw [ih]
      by_cases h2 : id = k
      · simp [h2]
      · have h3 : k1 ≠ id := by rw [h1]; exact fun hh => h2 hh.symm
        simp [h2, lookup, h3]
    · rw [show pyDel ((k1, v) :: rest) k = (k1, v) :: pyDel rest k by
        simp [pyDel, h1]]
      by_cases h3 : k1 = id
      · have h2 : ¬ id = k := by rw [← h3]; exact fun hh => h1 hh
        simp [lookup, h3, h2]
      · simp [lookup, h3, ih]

theorem lookup_foldl_pyDel (ks : List String) :
    ∀ reg id, lookup (ks.foldl pyDel reg) id =
      if id ∈ ks then none else lookup reg id := by
  induction ks with
  | nil => intro reg id; simp
  | cons k rest ih =>
    intro reg id
    simp only [List.foldl_cons]
    rw [ih]
    by_cases h : id ∈ rest
    · simp [h]
    · by_cases h2 : id = k <;> simp [h, h2, lookup_pyDel]

theorem mem_keys_of_lookup (id : String) (r : JobRecord) :
    ∀ reg : Registry, lookup reg id = some r → id ∈ reg.map Prod.fst := by
  intro reg
  induction reg with
  | nil => intro h; cases h
  | cons kv rest ih =>
    obtain ⟨k, v⟩ := kv
    intro h
    by_cases h1 : k = id
    · simp [h1]
    · simp only [lookup, h1, if_false] at h
      simp only [List.map_cons, List.mem_cons]
      exact Or.inr (ih h)

theorem keysToRemove_cons_old (now : ℚ) (k : String) (v : JobRecord)
    (rest : Registry) (hage : now - v.created_at > 86400) :
    keysToRemove ((k, v) :: rest) now = k :: keysToRemove rest now := by
  simp [keysToRemove, hage]

theorem keysToRemove_cons_young (now : ℚ) (k : String) (v : JobRecord)
    (rest : Registry) (hage : ¬ now - v.created_at > 86400) :
    keysToRemove ((k, v) :: rest) now = keysToRemove rest now := by
  simp [keysToRemove, hage]

theorem mem_keysToRemove (now : ℚ) (id : String) :
    ∀ reg : Registry, (reg.map Prod.fst).Nodup →
      (id ∈ keysToRemove reg now ↔
        ∃ r, lookup reg id = some r ∧ now - r.created_at > 86400) := by
  intro reg
  induction reg with
  | nil => intro _; simp [keysToRemove, lookup]
  | cons kv rest ih =>
    intro hnd
    obtain ⟨k, v⟩ := kv
    simp only [List.map_cons, List.nodup_cons] at hnd
    obtain ⟨hk, hnd2⟩ := hnd
    have ihr := ih hnd2
    by_cases h1 : k = id
    · subst h1
      constructor
      · intro hm
        refine ⟨v, by simp [lookup], ?_⟩
        by_cases hage : now - v.created_at > 86400
        · exact hage
        · exfalso
          rw [keysToRemove_cons_young now k v rest hage] at hm
          obtain ⟨r, hr, _⟩ := ihr.mp hm
          exact hk (mem_keys_of_lookup k r rest hr)
      · rintro ⟨r, hr, hage⟩
        rw [show lookup ((k, v) :: rest) k = some v by simp [lookup]] at hr
        cases hr
        rw [keysToRemove_cons_old now k v rest hage]
        simp
    · have hstep : id ∈ keysToRemove ((k, v) :: rest) now ↔
          id ∈ keysToRemove rest now := by
        by_cases hage : now - v.created_at > 86400
        · rw [keysToRemove_cons_old now k v rest hage]
          simp only [List.mem_cons]
          constructor
          · intro h2
            cases h2 with
            | inl h3 => exact absurd h3.symm h1
            | inr h3 => exact h3
          · exact Or.inr
        · rw [keysToRemove_cons_young now k v rest hage]
      rw [hstep, ihr]
      simp [lookup, h1]

/-! ## Claim theorems -/

/-- C4: the status endpoint returns 404 exactly when the job id is absent
from the registry, and otherwise returns the snapshot whose shape the
record's (derived) state dictates: ERROR yields `{status, message, error}`,
COMPLETE yields `{status, results}`, and anything else yields
`{status, progress, message}`. -/
theorem status_endpoint_shape (reg : Registry) (id : String) :
    get_job_status reg id =
      (match lookup reg id with
        | none => Except.error ⟨404, "Job not found"⟩
        | some r => Except.ok (shapeOf r)) := by
  unfold get_job_status shapeOf recordState
  cases h : lookup reg id with
  | none => rfl
  | some r =>
    by_cases he : pyTruthyStr r.error
    · simp [he]
    · by_cases hc : r.complete <;> simp [he, hc]

/-- C5: one sweep tick of the reaper removes a record exactly when
`now - created_at > 86400` seconds at that tick, regardless of the job's
state; younger or equal-age records survive unchanged.  (Keys of the
Python dict are unique, hence the Nodup hypothesis.) -/
theorem reaper_sweep_iff (reg : Registry) (now : ℚ) (id : String)
    (hnd : (reg.map Prod.fst).Nodup) :
    lookup (cleanup_sweep reg now) id =
      (match lookup reg id with
        | none => none
        | some r => if now - r.created_at > 86400 then none else some r) := by
  unfold cleanup_sweep
  rw [lookup_foldl_pyDel]
  cases h : lookup reg id with
  | none =>
    have hnm : id ∉ keysToRemove reg now := fun hm => by
      obtain ⟨r, hr, _⟩ := (mem_keysToRemove now id reg hnd).mp hm
      rw [h] at hr
      cases hr
    rw [if_neg hnm]
  | some r =>
    by_cases hage : now - r.created_at > 86400
    · rw [if_pos ((mem_keysToRemove now id reg hnd).mpr ⟨r, h, hage⟩)]
      simp [hage]
    · rw [if_neg (fun hm => by
        obtain ⟨r2, hr2, hage2⟩ := (mem_keysToRemove now id reg hnd).mp hm
        rw [h] at hr2
        cases hr2
        exact hage hage2)]
      simp [h, hage]

/-- Witness for C5 at concrete registries and a concrete tick: an
86500-second-old record is evicted; a record whose age is exactly the
86400-second threshold is kept unchanged. -/
theorem reaper_sweep_iff_witness :
    lookup (cleanup_sweep [("a", freshRecord 0)] 86500) "a" = none ∧
      lookup (cleanup_sweep [("b", freshRecord 100)] 86500) "b"
        = some (freshRecord 100) := by
  constructor
  · rw [reaper_sweep_iff [("a", freshRecord 0)] 86500 "a" (by decide)]
    simp only [lookup, freshRecord, if_pos rfl]
    norm_num
  · rw [reaper_sweep_iff [("b", freshRecord 100)] 86500 "b" (by decide)]
    simp only [lookup, freshRecord, if_pos rfl]
    norm_num

/-- C3: a zero-byte upload is rejected with a 400 "File is empty (0
bytes)" error before anything happens: the registry is unchanged (no job
record is created) and no background task is scheduled. -/
theorem empty_file_rejected (reg : Registry) (tasks : List ScheduledTask)
    (file_content : List Nat) (filename content_type : String)
    (form : OptionsForm) (new_job_id : String) (now : ℚ)
    (h : file_content.length = 0) :
    process_audio reg tasks file_content filename content_type form new_job_id now =
      ⟨.error ⟨400, "File is empty (0 bytes)"⟩, reg, tasks⟩ := by
  cases file_content with
  | nil => rfl
  | cons b rest => simp at h

/-- Witness for C3 on a concrete empty submission. -/
theorem empty_file_rejected_witness :
    process_audio [] [] [] "f.mp3" "audio/mpeg" .absent "j" 0 =
      ⟨.error ⟨400, "File is empty (0 bytes)"⟩, [], []⟩ :=
  empty_file_rejected [] [] [] "f.mp3" "audio/mpeg" .absent "j" 0 rfl

/-- C7 counterexample: the options model enforces no bounds at all — the
submission endpoint accepts `num_summary_points = 100` and
`summary_style = "Haiku"` and schedules the background task with those
out-of-range values unchanged. -/
theorem options_unvalidated_cex :
    get_options (.parsed (some 100) (some "Haiku")) =
        ⟨100, "Haiku"⟩ ∧
      ¬ ((3 : Int) ≤ 100 ∧ (100 : Int) ≤ 10) ∧
      (process_audio [] [] [0] "f.mp3" "audio/mpeg"
          (.parsed (some 100) (some "Haiku")) "j" 0).tasks =
        [⟨"mp3", "j", ⟨100, "Haiku"⟩⟩] := by
  refine ⟨rfl, by decide, ?_⟩
  rfl

/-- C7 amended: the accepted options object has defaults
`num_summary_points = 5` and `summary_style = "Bullets"` (used when the
field is absent or unparsable), but no range or enumeration constraint is
enforced: any integer and any string pydantic accepts pass through to the
pipeline unchanged. -/
theorem options_defaults_no_bounds :
    get_options .absent = ⟨5, "Bullets"⟩ ∧
      get_options .invalidJson = ⟨5, "Bullets"⟩ ∧
      get_options .notSchema = ⟨5, "Bullets"⟩ ∧
      (∀ n s, get_options (.parsed (some n) (some s)) = ⟨n, s⟩) ∧
      (∀ n, get_options (.parsed (some n) none) = ⟨n, "Bullets"⟩) ∧
      (∀ s, get_options (.parsed none (some s)) = ⟨5, s⟩) :=
  ⟨rfl, rfl, rfl, fun _ _ => rfl, fun _ => rfl, fun _ => rfl⟩

/-- C10: an absent, non-JSON or non-schema `options` form value silently
falls back to the default options and the submission is accepted: any
non-empty payload yields an ok response carrying the job id, and the job
record is created — malformed options never fail a submission. -/
theorem malformed_options_accepted :
    get_options .absent = ⟨5, "Bullets"⟩ ∧
      get_options .invalidJson = ⟨5, "Bullets"⟩ ∧
      get_options .notSchema = ⟨5, "Bullets"⟩ ∧
      ∀ (reg : Registry) (tasks : List ScheduledTask) (b : Nat) (rest : List Nat)
        (filename content_type : String) (form : OptionsForm) (id : String) (now : ℚ),
        (process_audio reg tasks (b :: rest) filename content_type form id now).response
            = .ok id ∧
          lookup (process_audio reg tasks (b :: rest) filename content_type
              form id now).registry id = some (freshRecord now) := by
  refine ⟨rfl, rfl, rfl, ?_⟩
  intro reg tasks b rest filename content_type form id now
  constructor
  · rfl
  · show lookup (dictInsert reg id (freshRecord now)) id = some (freshRecord now)
    unfold dictInsert
    by_cases h : (lookup reg id).isSome
    · rw [if_pos h, lookup_setEntry_self]
      obtain ⟨r, hr⟩ := Option.isSome_iff_exists.mp h
      rw [hr]
      rfl
    · rw [if_neg h]
      rw [Option.not_isSome_iff_eq_none] at h
      induction reg with
      | nil => simp [lookup]
      | cons kv rest2 ih =>
        obtain ⟨k, v⟩ := kv
        by_cases h2 : k = id
        · rw [show lookup ((k, v) :: rest2) id = some v by simp [lookup, h2]] at h
          cases h
        · simp only [List.cons_append, lookup, h2, if_false] at h ⊢
          exact ih h

/-- C2, evaluated at its failing input: the guarded `update_status` is
indeed a silent no-op on an absent id, but the executor's final writes are
unguarded dict subscripts — on a registry from which the job has been
evicted, `job_status[job_id]["complete"] = True` and
`job_status[job_id]["error"] = msg` raise `KeyError`, and a full executor
run against an empty registry ends with the `KeyError` escaping the task
(the registry itself is left unchanged and nothing is resurrected, but
the claim's "no exception is raised" fails). -/
theorem late_update_keyerror :
    update_status [] "job-1" 50 "x" 0 = [] ∧
      setJobComplete [] "job-1" = .error "'job-1'" ∧
      setJobError [] "job-1" "boom" = .error "'job-1'" ∧
      (process_audio_task [] "job-1" {} successEnv).raised
          = some "KeyError: 'job-1'" ∧
      (process_audio_task [] "job-1" {} successEnv).final = [] := by
  decide

/-- C8 counterexample: when nothing is indexed (or nothing matches), the
search operation does not return an empty list — it returns a one-element
list whose single entry carries the sentinel message with score 0.0, and
the endpoint forwards that non-empty list. -/
theorem search_sentinel_not_empty_cex :
    pySearch ⟨[], false⟩ "hello" 5 (.ok []) =
        [("No transcript has been indexed yet.", 0)] ∧
      (pySearch ⟨[], false⟩ "hello" 5 (.ok [])).length = 1 ∧
      pySearch ⟨["a"], true⟩ "q" 5 (.ok [0]) =
        [("No matching results found.", 0)] ∧
      (search_transcript ⟨[], false⟩ "hello" (.ok [])).length ≠ 0 := by
  decide

theorem searchHits_nonneg (sentences : List String) (sims : List ℚ) (n : Int) :
    ∀ p ∈ searchHits sentences sims n, 0 ≤ p.2 := by
  intro p hp
  unfold searchHits at hp
  simp only [List.mem_filterMap] at hp
  obtain ⟨i, _, hf⟩ := hp
  by_cases hpos : 0 < sims.getD i 0
  · rw [if_pos hpos] at hf
    cases hf
    exact le_of_lt hpos
  · rw [if_neg hpos] at hf
    cases hf

/-- C8 amended: the search operation is total (every failure of the
external vector computation is caught), every score it returns is
non-negative, and the un-indexed / invalid-query / no-match cases return
a ONE-element list carrying a sentinel message with score 0.0 — not an
empty list. -/
theorem search_total_nonneg (st : MeetingSearchState) (q : String) (n : Int)
    (sim : Except String (List ℚ)) :
    pySearch st q n sim ≠ [] ∧ ∀ p ∈ pySearch st q n sim, 0 ≤ p.2 := by
  unfold pySearch
  by_cases h1 : ¬ st.vectorized ∨ st.sentences = []
  · rw [if_pos h1]
    refine ⟨by simp, ?_⟩
    intro p hp
    simp only [List.mem_singleton] at hp
    subst hp
    exact le_refl 0
  · rw [if_neg h1]
    by_cases h2 : pyStrip q.data = []
    · rw [if_pos h2]
      refine ⟨by simp, ?_⟩
      intro p hp
      simp only [List.mem_singleton] at hp
      subst hp
      exact le_refl 0
    · rw [if_neg h2]
      cases sim with
      | error e =>
        dsimp only
        refine ⟨by simp, ?_⟩
        intro p hp
        simp only [List.mem_singleton] at hp
        subst hp
        exact le_refl 0
      | ok sims =>
        dsimp only
        by_cases h3 : searchHits st.sentences sims n = []
        · rw [if_pos h3]
          refine ⟨by simp, ?_⟩
          intro p hp
          simp only [List.mem_singleton] at hp
          subst hp
          exact le_refl 0
        · rw [if_neg h3]
          exact ⟨h3, searchHits_nonneg st.sentences sims n⟩

/-- Witness for C8's amended theorem at a concrete indexed state and
similarity vector. -/
theorem search_total_nonneg_witness :
    pySearch ⟨["x", "y"], true⟩ "q" 5 (.ok [1, 2]) ≠ [] ∧
      0 ≤ (("y", (2 : ℚ)) : String × ℚ).2 := by
  refine ⟨(search_total_nonneg ⟨["x", "y"], true⟩ "q" 5 (.ok [1, 2])).1, ?_⟩
  exact (search_total_nonneg ⟨["x", "y"], true⟩ "q" 5 (.ok [1, 2])).2
    ("y", 2) (by decide)

theorem transcribe_trace_of_ok (path : String) (env : TranscribeEnv) (t : Option PyStr)
    (h : (transcribe_audio path env).2 = .ok t) :
    (transcribe_audio path env).1.map (·.1) = [5, 8, 10, 15, 30, 40, 100] := by
  obtain ⟨fe, fs, ai, conv, wi, sdk⟩ := env
  obtain ⟨aie, ad, asr, ach⟩ := ai
  obtain ⟨wie, wd, wsr, wch⟩ := wi
  cases fe with
  | false => simp [transcribe_audio] at h
  | true =>
    by_cases hfs : fs = 0
    · simp [transcribe_audio, hfs] at h
    · cases aie with
      | none => simp [transcribe_audio, hfs] at h
      | some errval =>
        cases conv with
        | error e => simp [transcribe_audio, hfs] at h
        | ok u =>
          cases wie with
          | none => simp [transcribe_audio, hfs] at h
          | some werr =>
            by_cases hw : pyTruthyStr werr
            · simp [transcribe_audio, hfs, hw] at h
            · cases sdk with
              | raised m => simp [transcribe_audio, hfs, hw] at h
              | statusError ea => simp [transcribe_audio, hfs, hw] at h
              | ok text => simp [transcribe_audio, hfs, hw]

/-- C1 counterexample, on the repository exactly as committed (the check
dict carries no "error" key): the progress values written to the job
record while it is still running — the executor's writes and the
transcription callback's writes interleaved — are 5, 10, 15, 20, 25
followed by the callback restarting at 5, then 8, then the error-path 0,
all before the record's `error` field is set.  The sequence decreases at
25 → 5 and 8 → 0, refuting monotonicity. -/
theorem progress_not_monotone_cex :
    progressTrace (process_audio_task [("j", freshRecord 0)] "j" {} faithfulEnv)
        = [5, 10, 15, 20, 25, 5, 8, 0] ∧
      nonDecreasing
        (progressTrace (process_audio_task [("j", freshRecord 0)] "j" {} faithfulEnv))
        = false := by
  decide

/-- C1 amended: on a successful run, the executor's own direct updates
(5, 10, 15, 20, 25, 80, 90, 100) and the transcription callback's updates
(5, 8, 10, 15, 30, 40, 100) are each non-decreasing, but the combined
sequence the job record sees is their interleaving, which decreases at
the two stage handoffs: the callback restarts at 5 after the executor has
written 25, and the executor writes 80 after the callback's final 100
(error paths additionally write 0). -/
theorem progress_trace_structure (options : SummaryOptions) (env : ExecEnv)
    (d : StageData) (h : (execOutcome options env).2 = .ok d) :
    (execOutcome options env).1.map (·.1) =
        [5, 10, 15, 20, 25, 5, 8, 10, 15, 30, 40, 100, 80, 90, 100] ∧
      nonDecreasing [5, 10, 15, 20, 25, 80, 90, 100] = true ∧
      nonDecreasing [5, 8, 10, 15, 30, 40, 100] = true ∧
      nonDecreasing ((execOutcome options env).1.map (·.1)) = false := by
  have htrace : (execOutcome options env).1.map (·.1) =
      [5, 10, 15, 20, 25, 5, 8, 10, 15, 30, 40, 100, 80, 90, 100] := by
    cases hconv : env.convertServer with
    | error e => simp [execOutcome, hconv] at h
    | ok u =>
      cases htr2 : (transcribe_audio env.wav_path env.tenv).2 with
      | error m => simp [execOutcome, hconv, htr2] at h
      | ok tt =>
        have hmap := transcribe_trace_of_ok env.wav_path env.tenv tt htr2
        simp [execOutcome, hconv, htr2, hmap]
  refine ⟨htrace, by decide, by decide, ?_⟩
  rw [htrace]
  decide

/-- Witness for C1's amended theorem on a concrete fully successful run. -/
theorem progress_trace_structure_witness :
    (execOutcome {} successEnv).1.map (·.1) =
        [5, 10, 15, 20, 25, 5, 8, 10, 15, 30, 40, 100, 80, 90, 100] ∧
      nonDecreasing [5, 10, 15, 20, 25, 80, 90, 100] = true ∧
      nonDecreasing [5, 8, 10, 15, 30, 40, 100] = true ∧
      nonDecreasing ((execOutcome {} successEnv).1.map (·.1)) = false :=
  progress_trace_structure {} successEnv
    ⟨some (toPy "hi"), toPy "• hi", "S"⟩ (by decide)

/-- C6 counterexample: a pipeline stage raising an exception whose `str`
is the empty string leaves a job whose record carries the error
(`error = some ""`, no results), yet the status endpoint does NOT return
the error-shaped response for it — Python's falsy `""` sends the endpoint
down the processing branch, so the poller sees
`{status: processing, progress: 0, message: "Error: "}`.  No partial
result leaks, but the response is not error-shaped as the claim demands. -/
theorem failed_job_processing_shape_cex :
    (execOutcome {} emptyErrEnv).2 = .error "" ∧
      (lookup (process_audio_task [("j", freshRecord 0)] "j" {} emptyErrEnv).final
          "j").map (fun r => (r.error, r.complete, r.results)) =
        some (some "", false, none) ∧
      get_job_status
          (process_audio_task [("j", freshRecord 0)] "j" {} emptyErrEnv).final "j"
        = .ok (.processingShape 0 "Error: ") := by
  decide

/-- C6 amended: whenever any pipeline stage raises, the job's record ends
with `results` still unset and `complete` still false — no transcript,
summary or sentiment value is ever reachable through the status endpoint
for that job (every poll response has `exposesResults = false`) — and the
response is the error shape whenever the recorded message is non-empty;
a failure whose message is the empty string is instead reported through
the processing shape (progress 0, message "Error: "), still without any
partial results. -/
theorem failed_job_no_partial_results (reg : Registry) (id : String)
    (options : SummaryOptions) (env : ExecEnv) (r0 : JobRecord) (m : String)
    (h0 : lookup reg id = some r0) (hres : r0.results = none)
    (hcomp : r0.complete = false)
    (hout : (execOutcome options env).2 = .error m) :
    ∃ rec, lookup (process_audio_task reg id options env).final id = some rec ∧
      rec.results = none ∧ rec.complete = false ∧ rec.error = some m ∧
      get_job_status (process_audio_task reg id options env).final id =
        .ok (if m = "" then .processingShape 0 ("Error: " ++ m)
             else .errorShape ("Error: " ++ m) m) ∧
      ∀ resp, get_job_status (process_audio_task reg id options env).final id
          = .ok resp → exposesResults resp = false := by
  obtain ⟨r1, hl1, e1, e2, e3, e4⟩ :=
    lookup_applyUpdates_some id env.clock (execOutcome options env).1 reg 0 r0 h0
  have hPT : process_audio_task reg id options env =
      exceptBranch (execOutcome options env).1
        (applyUpdates reg id env.clock 0 (execOutcome options env).1) id m env.clock := by
    simp only [process_audio_task, hout]
  have hreg2 : lookup (update_status
        (applyUpdates reg id env.clock 0 (execOutcome options env).1) id 0
        ("Error: " ++ m) (env.clock (execOutcome options env).1.length)) id
      = some { r1 with
          progress := 0,
          message := "Error: " ++ m,
          updated_at := env.clock (execOutcome options env).1.length } := by
    rw [lookup_update_status_self, hl1]
    rfl
  have hse : setJobError (update_status
        (applyUpdates reg id env.clock 0 (execOutcome options env).1) id 0
        ("Error: " ++ m) (env.clock (execOutcome options env).1.length)) id m
      = .ok (setEntry (update_status
          (applyUpdates reg id env.clock 0 (execOutcome options env).1) id 0
          ("Error: " ++ m) (env.clock (execOutcome options env).1.length)) id
          (fun r => { r with error := some m })) :=
    lookup_setJobError_self _ id m _ hreg2
  have hfinal : (process_audio_task reg id options env).final =
      setEntry (update_status
        (applyUpdates reg id env.clock 0 (execOutcome options env).1) id 0
        ("Error: " ++ m) (env.clock (execOutcome options env).1.length)) id
        (fun r => { r with error := some m }) := by
    rw [hPT]
    simp only [exceptBranch]
    rw [show applyUpdates
        (applyUpdates reg id env.clock 0 (execOutcome options env).1) id env.clock
        (execOutcome options env).1.length [((0 : Int), "Error: " ++ m)] =
      update_status
        (applyUpdates reg id env.clock 0 (execOutcome options env).1) id 0
        ("Error: " ++ m) (env.clock (execOutcome options env).1.length) from rfl]
    rw [hse]
  have hrec : lookup (process_audio_task reg id options env).final id =
      some { r1 with
        progress := 0,
        message := "Error: " ++ m,
        updated_at := env.clock (execOutcome options env).1.length,
        error := some m } := by
    rw [hfinal, lookup_setEntry_self, hreg2]
    rfl
  have hgjs : get_job_status (process_audio_task reg id options env).final id =
      .ok (if m = "" then .processingShape 0 ("Error: " ++ m)
           else .errorShape ("Error: " ++ m) m) := by
    unfold get_job_status
    rw [hrec]
    by_cases hm : m = ""
    · subst hm
      simp [pyTruthyStr, e2, hcomp]
    · simp [pyTruthyStr, hm]
  refine ⟨{ r1 with
    progress := 0,
    message := "Error: " ++ m,
    updated_at := env.clock (execOutcome options env).1.length,
    error := some m }, hrec, ?_, ?_, rfl, hgjs, ?_⟩
  · show r1.results = none
    rw [e1, hres]
  · show r1.complete = false
    rw [e2, hcomp]
  · intro resp hresp
    rw [hgjs] at hresp
    have : (if m = "" then StatusResponse.processingShape 0 ("Error: " ++ m)
        else StatusResponse.errorShape ("Error: " ++ m) m) = resp := by
      cases hresp
      rfl
    rw [← this]
    by_cases hm : m = "" <;> simp [hm, exposesResults]

/-- Witness for C6's amended theorem on a concrete failing run. -/
theorem failed_job_no_partial_results_witness :
    ∃ rec, lookup (process_audio_task [("j", freshRecord 0)] "j" {} boomEnv).final
        "j" = some rec ∧
      rec.results = none ∧ rec.complete = false ∧ rec.error = some "boom" ∧
      get_job_status (process_audio_task [("j", freshRecord 0)] "j" {} boomEnv).final
          "j" =
        .ok (if "boom" = "" then .processingShape 0 ("Error: " ++ "boom")
             else .errorShape ("Error: " ++ "boom") "boom") ∧
      ∀ resp, get_job_status
          (process_audio_task [("j", freshRecord 0)] "j" {} boomEnv).final "j"
          = .ok resp → exposesResults resp = false :=
  failed_job_no_partial_results [("j", freshRecord 0)] "j" {} boomEnv
    (freshRecord 0) "boom" (by decide) rfl rfl (by decide)

/-! ## Lemmas about bullets and the summary rendering (for C9) -/

theorem bulletFree_iff (s : PyStr) : bulletFree s = true ↔ '•' ∉ s := by
  simp [bulletFree]

theorem count_eq_zero_of_bulletFree (s : PyStr) (h : bulletFree s = true) :
    s.count '•' = 0 :=
  List.count_eq_zero.mpr ((bulletFree_iff s).mp h)

/-- The bullet separator used by every summary rendering. -/
theorem count_pyJoin_bulletFree : ∀ items : List PyStr,
    (∀ x ∈ items, bulletFree x = true) →
    (pyJoin ('\n' :: '•' :: ' ' :: []) items).count '•' = items.length - 1 := by
  intro items
  induction items with
  | nil => intro _; rfl
  | cons x rest ih =>
    intro h
    cases rest with
    | nil =>
      simpa [pyJoin] using count_eq_zero_of_bulletFree x (h x (by simp))
    | cons y rest2 =>
      have hx := count_eq_zero_of_bulletFree x (h x (by simp))
      have hr := ih (fun z hz => h z (by simp [hz]))
      show (x ++ ('\n' :: '•' :: ' ' :: []) ++
        pyJoin ('\n' :: '•' :: ' ' :: []) (y :: rest2)).count '•' = _
      rw [List.count_append, List.count_append, hx, hr]
      simp [List.count_cons]
      omega

theorem bulletCount_renderBullets (items : List PyStr)
    (h : ∀ x ∈ items, bulletFree x = true) :
    bulletCount (renderBullets items) = max 1 items.length := by
  unfold bulletCount renderBullets
  rw [show ('•' :: ' ' :: pyJoin ('\n' :: '•' :: ' ' :: []) items).count '•' =
      (pyJoin ('\n' :: '•' :: ' ' :: []) items).count '•' + 1 by
    simp [List.count_cons]]
  rw [count_pyJoin_bulletFree items h]
  cases items with
  | nil => rfl
  | cons x rest =>
    simp only [List.length_cons]
    omega

/-- `replace("• ", "")` walks past any non-bullet character. -/
theorem removeBulletSpace_cons_ne (c : Char) (L : PyStr) (hc : c ≠ '•') :
    removeBulletSpace (c :: L) = c :: removeBulletSpace L := by
  rw [removeBulletSpace.eq_def]
  split
  · next heq => simp at heq
  · next heq =>
    injection heq with h1 h2
    exact absurd h1 hc
  · next c2 rest heq =>
    injection heq with h1 h2
    rw [h1, h2]

theorem removeBulletSpace_append_bulletFree : ∀ x t : PyStr,
    bulletFree x = true →
    removeBulletSpace (x ++ t) = x ++ removeBulletSpace t := by
  intro x
  induction x with
  | nil => intro t _; rfl
  | cons c x2 ih =>
    intro t h
    have hc : c ≠ '•' := by
      intro hcc
      rw [bulletFree_iff] at h
      exact h (by simp [hcc])
    have hx2 : bulletFree x2 = true := by
      rw [bulletFree_iff] at h ⊢
      exact fun hm => h (by simp [hm])
    rw [List.cons_append, removeBulletSpace_cons_ne c _ hc, ih t hx2,
      List.cons_append]

theorem removeBulletSpace_nil_of_bulletFree (x : PyStr) (h : bulletFree x = true) :
    removeBulletSpace x = x := by
  have h2 := removeBulletSpace_append_bulletFree x [] h
  rw [List.append_nil] at h2
  rw [h2]
  rw [show removeBulletSpace [] = [] from rfl, List.append_nil]

theorem bulletFree_removeBulletSpace_pyJoin : ∀ items : List PyStr,
    (∀ x ∈ items, bulletFree x = true) →
    bulletFree (removeBulletSpace (pyJoin ('\n' :: '•' :: ' ' :: []) items)) = true := by
  intro items
  induction items with
  | nil => intro _; rfl
  | cons x rest ih =>
    intro h
    cases rest with
    | nil =>
      show bulletFree (removeBulletSpace x) = true
      rw [removeBulletSpace_nil_of_bulletFree x (h x (by simp))]
      exact h x (by simp)
    | cons y rest2 =>
      have hx := h x (List.mem_cons_self x _)
      show bulletFree (removeBulletSpace
        (x ++ ('\n' :: '•' :: ' ' :: []) ++ pyJoin ('\n' :: '•' :: ' ' :: []) (y :: rest2)))
        = true
      rw [List.append_assoc, removeBulletSpace_append_bulletFree x _ hx]
      simp only [List.cons_append, List.nil_append]
      rw [show removeBulletSpace ('\n' :: '•' :: ' ' ::
        pyJoin ('\n' :: '•' :: ' ' :: []) (y :: rest2)) =
        '\n' :: removeBulletSpace (pyJoin ('\n' :: '•' :: ' ' :: []) (y :: rest2)) from rfl]
      have hrec := ih (fun z hz => h z (by simp [hz]))
      rw [bulletFree_iff] at hx hrec ⊢
      intro hm
      rw [List.mem_append] at hm
      cases hm with
      | inl hm => exact hx hm
      | inr hm =>
        rw [List.mem_cons] at hm
        cases hm with
        | inl hm => cases hm
        | inr hm => exact hrec hm

theorem bulletFree_removeBulletSpace_render (items : List PyStr)
    (h : ∀ x ∈ items, bulletFree x = true) :
    bulletFree (removeBulletSpace (renderBullets items)) = true := by
  unfold renderBullets
  rw [show removeBulletSpace ('•' :: ' ' :: pyJoin ('\n' :: '•' :: ' ' :: []) items) =
    removeBulletSpace (pyJoin ('\n' :: '•' :: ' ' :: []) items) from rfl]
  exact bulletFree_removeBulletSpace_pyJoin items h

theorem bulletFree_newlineToSpace (s : PyStr) (h : bulletFree s = true) :
    bulletFree (newlineToSpace s) = true := by
  rw [bulletFree_iff] at h ⊢
  intro hm
  unfold newlineToSpace at hm
  rw [List.mem_map] at hm
  obtain ⟨c, hc, hce⟩ := hm
  by_cases hn : c = '\n'
  · rw [if_pos hn] at hce
    cases hce
  · rw [if_neg hn] at hce
    exact h (hce ▸ hc)

theorem bulletFree_paragraphConvert_render (items : List PyStr)
    (h : ∀ x ∈ items, bulletFree x = true) :
    bulletFree (paragraphConvert (renderBullets items)) = true :=
  bulletFree_newlineToSpace _ (bulletFree_removeBulletSpace_render items h)

/-! ## Membership and length helpers (for C9) -/

theorem bulletFree_getD (l : List PyStr) (i : Nat)
    (h : ∀ x ∈ l, bulletFree x = true) : bulletFree (l.getD i []) = true := by
  rw [List.getD_eq_getElem?_getD]
  cases hg : l[i]? with
  | none => rfl
  | some x => simpa using h x (List.getElem?_mem hg)

theorem bulletFree_headD (l : List PyStr) (h : ∀ x ∈ l, bulletFree x = true) :
    bulletFree (l.headD []) = true := by
  cases l with
  | nil => rfl
  | cons x rest => exact h x (by simp)

theorem bulletFree_getLastD (l : List PyStr) (h : ∀ x ∈ l, bulletFree x = true) :
    bulletFree (l.getLastD []) = true := by
  cases l with
  | nil => rfl
  | cons x rest =>
    rw [List.getLastD_eq_getLast?, List.getLast?_eq_getLast _ (by simp),
      Option.getD_some]
    exact h _ (List.getLast_mem _)

theorem length_pyInsertBy {α : Type} (le : α → α → Bool) (a : α) :
    ∀ l : List α, (pyInsertBy le a l).length = l.length + 1 := by
  intro l
  induction l with
  | nil => rfl
  | cons b l2 ih =>
    unfold pyInsertBy
    by_cases h : le a b
    · rw [if_pos h]
      rfl
    · rw [if_neg h]
      simp [ih]

theorem length_pySortBy {α : Type} (le : α → α → Bool) :
    ∀ l : List α, (pySortBy le l).length = l.length := by
  intro l
  induction l with
  | nil => rfl
  | cons a l2 ih =>
    unfold pySortBy
    rw [length_pyInsertBy, ih]
    rfl

theorem length_pySliceTo_le {α : Type} (l : List α) (n : Int) (h : 0 ≤ n) :
    (pySliceTo l n).length ≤ n.toNat := by
  unfold pySliceTo
  rw [if_pos h]
  exact List.length_take_le n.toNat l

theorem length_nlargestIdx (n : Int) (scores : List (Nat × ℚ)) :
    (nlargestIdx n scores).length ≤ n.toNat := by
  unfold nlargestIdx
  rw [List.length_map]
  exact List.length_take_le n.toNat _

theorem chars_pyStrip (s : PyStr) : ∀ c ∈ pyStrip s, c ∈ s := by
  intro c hc
  unfold pyStrip at hc
  rw [List.mem_reverse] at hc
  have h2 := List.dropWhile_sublist (l := (s.dropWhile Char.isWhitespace).reverse)
    (p := Char.isWhitespace)
  have h3 := h2.mem hc
  rw [List.mem_reverse] at h3
  exact (List.dropWhile_sublist (l := s) (p := Char.isWhitespace)).mem h3

theorem bulletFree_pyStrip (s : PyStr) (h : bulletFree s = true) :
    bulletFree (pyStrip s) = true := by
  rw [bulletFree_iff] at h ⊢
  exact fun hm => h (chars_pyStrip s _ hm)

theorem chars_splitSepFuel (s0 : Char) (srest : PyStr) :
    ∀ (fuel : Nat) (s p : PyStr), p ∈ splitSepFuel s0 srest fuel s → ∀ c ∈ p, c ∈ s := by
  intro fuel
  induction fuel with
  | zero =>
    intro s p hp c hc
    cases s with
    | nil =>
      simp only [splitSepFuel, List.mem_singleton] at hp
      subst hp
      cases hc
    | cons a rest =>
      simp only [splitSepFuel, List.mem_singleton] at hp
      subst hp
      exact hc
  | succ fuel ih =>
    intro s p hp c hc
    cases s with
    | nil =>
      simp only [splitSepFuel, List.mem_singleton] at hp
      subst hp
      cases hc
    | cons a rest =>
      simp only [splitSepFuel] at hp
      by_cases hpre : (s0 :: srest).isPrefixOf (a :: rest)
      · rw [if_pos hpre] at hp
        rw [List.mem_cons] at hp
        cases hp with
        | inl hp => subst hp; cases hc
        | inr hp =>
          have := ih (rest.drop srest.length) p hp c hc
          exact List.mem_cons_of_mem a (List.drop_subset _ rest this)
      · rw [if_neg hpre] at hp
        cases hrec : splitSepFuel s0 srest fuel rest with
        | nil =>
          rw [hrec] at hp
          simp only [List.mem_singleton] at hp
          subst hp
          rw [List.mem_singleton] at hc
          rw [hc]
          exact List.mem_cons_self a rest
        | cons q qs =>
          rw [hrec] at hp
          rw [List.mem_cons] at hp
          cases hp with
          | inl hp =>
            subst hp
            rw [List.mem_cons] at hc
            cases hc with
            | inl hc => rw [hc]; exact List.mem_cons_self a rest
            | inr hc =>
              have := ih rest q (by rw [hrec]; exact List.mem_cons_self q qs) c hc
              exact List.mem_cons_of_mem a this
          | inr hp =>
            have := ih rest p (by rw [hrec]; exact List.mem_cons_of_mem q hp) c hc
            exact List.mem_cons_of_mem a this

theorem bulletFree_pySplit (transcript : PyStr) (h : bulletFree transcript = true) :
    ∀ p ∈ pySplitOnAux '.' [' '] transcript, bulletFree p = true := by
  intro p hp
  rw [bulletFree_iff] at h ⊢
  intro hc
  exact h (chars_splitSepFuel '.' [' '] transcript.length transcript p hp '•' hc)

theorem exceptFallback_shape (transcript : PyStr) (num : Int) (hnum : 3 ≤ num)
    (hbf : bulletFree transcript = true) :
    ∃ items, exceptFallback transcript num = renderBullets items ∧
      (∀ x ∈ items, bulletFree x = true) ∧ items.length ≤ num.toNat := by
  have hparts := bulletFree_pySplit transcript hbf
  unfold exceptFallback
  by_cases h1 : (pySplitOnAux '.' [' '] transcript).length ≤ 3
  · rw [if_pos h1]
    exact ⟨_, rfl, hparts, by omega⟩
  · rw [if_neg h1, if_neg (show ¬ num = 1 by omega)]
    refine ⟨_, rfl, ?_, ?_⟩
    · intro x hx
      rw [List.mem_append, List.mem_append] at hx
      rcases hx with (hx | hx) | hx
      · rw [List.mem_singleton] at hx
        subst hx
        exact bulletFree_headD _ hparts
      · rw [List.mem_filterMap] at hx
        obtain ⟨i, _, hf⟩ := hx
        by_cases hcond : i * max 1 (Int.fdiv (pySplitOnAux '.' [' '] transcript).length
            (num - 1)) < ((pySplitOnAux '.' [' '] transcript).length : Int)
        · rw [if_pos hcond] at hf
          cases hf
          exact bulletFree_getD _ _ hparts
        · rw [if_neg hcond] at hf
          cases hf
      · by_cases hlen : (pySplitOnAux '.' [' '] transcript).length > 1
        · rw [if_pos hlen, List.mem_singleton] at hx
          subst hx
          exact bulletFree_getLastD _ hparts
        · rw [if_neg hlen] at hx
          cases hx
    · rw [List.length_append, List.length_append, List.length_singleton]
      have hmid : ((pyRangeInt 1 (num - 1)).filterMap (fun i =>
          if i * max 1 (Int.fdiv (pySplitOnAux '.' [' '] transcript).length (num - 1))
              < ((pySplitOnAux '.' [' '] transcript).length : Int) then
            some ((pySplitOnAux '.' [' '] transcript).getD
              (i * max 1 (Int.fdiv (pySplitOnAux '.' [' '] transcript).length
                (num - 1))).toNat [])
          else none)).length ≤ (num - 2).toNat := by
        calc _ ≤ (pyRangeInt 1 (num - 1)).length := List.length_filterMap_le _ _
        _ = (num - 2).toNat := by
          unfold pyRangeInt
          rw [List.length_map, List.length_range]
          congr 1
          omega
      have htail : (if (pySplitOnAux '.' [' '] transcript).length > 1 then
          [(pySplitOnAux '.' [' '] transcript).getLastD []] else []).length ≤ 1 := by
        by_cases hlen : (pySplitOnAux '.' [' '] transcript).length > 1
        · rw [if_pos hlen]; exact le_refl 1
        · rw [if_neg hlen]; exact Nat.zero_le 1
      omega

theorem freqFallback_shape (sentences : List PyStr) (num : Int) (hnum : 0 ≤ num)
    (hsbf : ∀ x ∈ sentences, bulletFree x = true) :
    ∃ items, freqFallback sentences num = renderBullets items ∧
      (∀ x ∈ items, bulletFree x = true) ∧ items.length ≤ num.toNat := by
  unfold freqFallback
  refine ⟨_, rfl, ?_, ?_⟩
  · intro x hx
    rw [List.mem_map] at hx
    obtain ⟨i, _, hxe⟩ := hx
    subst hxe
    exact bulletFree_getD _ _ hsbf
  · rw [List.length_map]
    exact length_pySliceTo_le _ num hnum

theorem scoreFallback_shape (transcript : PyStr) (sentences : List PyStr) (num : Int)
    (hnum : 3 ≤ num) (hbf : bulletFree transcript = true)
    (hsbf : ∀ x ∈ sentences, bulletFree x = true) :
    ∃ items, scoreFallback transcript sentences num = renderBullets items ∧
      (∀ x ∈ items, bulletFree x = true) ∧ items.length ≤ num.toNat := by
  unfold scoreFallback
  by_cases hd : Int.fdiv sentences.length (num - 1) + 1 = 0
  · rw [if_pos hd]
    exact exceptFallback_shape transcript num hnum hbf
  · rw [if_neg hd]
    refine ⟨_, rfl, ?_, ?_⟩
    · intro x hx
      rw [List.mem_map] at hx
      obtain ⟨i, _, hxe⟩ := hx
      subst hxe
      exact bulletFree_getD _ _ hsbf
    · rw [List.length_map, List.length_cons]
      have hextra : (if sentences.length > 1 then
          pySliceTo ((pyRangeInt 1 sentences.length).filter
            (fun i => Int.fmod i (Int.fdiv sentences.length (num - 1) + 1) = 0))
            (num - 1)
        else []).length ≤ (num - 1).toNat := by
        by_cases hlen : sentences.length > 1
        · rw [if_pos hlen]
          exact length_pySliceTo_le _ (num - 1) (by omega)
        · rw [if_neg hlen]
          exact Nat.zero_le _
      omega

theorem mainSummary_shape (sentences : List PyStr) (scores : List (Nat × ℚ))
    (num : Int) (hsbf : ∀ x ∈ sentences, bulletFree x = true) :
    ∃ items, mainSummary sentences scores num = renderBullets items ∧
      (∀ x ∈ items, bulletFree x = true) ∧ items.length ≤ num.toNat := by
  unfold mainSummary
  refine ⟨_, rfl, ?_, ?_⟩
  · intro x hx
    rw [List.mem_map] at hx
    obtain ⟨i, _, hxe⟩ := hx
    subst hxe
    exact bulletFree_getD _ _ hsbf
  · rw [List.length_map, length_pySortBy]
    exact length_nlargestIdx num scores

/-- Every path of `summarize_text` renders at most `num` bullet-free
items when `3 ≤ num` and the transcript (and what the sentence tokenizer
makes of it) is free of bullet characters. -/
theorem summarize_shape (nltk : NltkEnv) (t? : Option PyStr) (num : Int)
    (hnum : 3 ≤ num)
    (hbf : ∀ t, t? = some t → bulletFree t = true)
    (hsent : ∀ s l, bulletFree s = true → nltk.sent_tokenize s = some l →
      ∀ x ∈ l, bulletFree x = true) :
    ∃ items, summarize_text nltk t? num = renderBullets items ∧
      (∀ x ∈ items, bulletFree x = true) ∧ items.length ≤ num.toNat := by
  have h1n : (1 : Nat) ≤ num.toNat := by omega
  cases t? with
  | none =>
    refine ⟨[toPy "Invalid transcript format"], rfl, ?_, h1n⟩
    intro x hx
    rw [List.mem_singleton] at hx
    subst hx
    decide
  | some raw =>
    have hraww : bulletFree raw = true := hbf raw rfl
    have hstrip : bulletFree (pyStrip raw) = true := bulletFree_pyStrip raw hraww
    simp only [summarize_text]
    by_cases hempty : pyStrip raw = []
    · rw [if_pos hempty]
      refine ⟨[toPy "No transcript content to summarize"], rfl, ?_, h1n⟩
      intro x hx
      rw [List.mem_singleton] at hx
      subst hx
      decide
    · rw [if_neg hempty]
      cases hsents : nltk.sent_tokenize (pyStrip raw) with
      | none => exact exceptFallback_shape (pyStrip raw) num hnum hstrip
      | some sentences =>
        dsimp only
        have hsbf : ∀ x ∈ sentences, bulletFree x = true :=
          hsent (pyStrip raw) sentences hstrip hsents
        by_cases hshort : (sentences.length : Int) ≤ num
        · rw [if_pos hshort]
          exact ⟨sentences, rfl, hsbf, by omega⟩
        · rw [if_neg hshort]
          by_cases hfr : buildFreqs (stopOfEnv nltk) (wordsOfEnv nltk) sentences = []
          · rw [if_pos hfr, if_neg (show ¬ num = 0 by omega)]
            exact freqFallback_shape sentences num (by omega) hsbf
          · rw [if_neg hfr]
            by_cases hsc : buildScores
                (normFreqs (buildFreqs (stopOfEnv nltk) (wordsOfEnv nltk) sentences))
                (wordsOfEnv nltk) sentences = []
            · rw [if_pos hsc, if_neg (show ¬ num = 1 by omega)]
              exact scoreFallback_shape (pyStrip raw) sentences num hnum hstrip hsbf
            · rw [if_neg hsc]
              exact mainSummary_shape sentences _ num hsbf

theorem transcribe_ok_sdk (path : String) (env : TranscribeEnv) (t : Option PyStr)
    (h : (transcribe_audio path env).2 = .ok t) : env.sdk = SdkResult.ok t := by
  obtain ⟨fe, fs, ai, conv, wi, sdk⟩ := env
  obtain ⟨aie, ad, asr, ach⟩ := ai
  obtain ⟨wie, wd, wsr, wch⟩ := wi
  cases fe with
  | false => simp [transcribe_audio] at h
  | true =>
    by_cases hfs : fs = 0
    · simp [transcribe_audio, hfs] at h
    · cases aie with
      | none => simp [transcribe_audio, hfs] at h
      | some errval =>
        cases conv with
        | error e => simp [transcribe_audio, hfs] at h
        | ok u =>
          cases wie with
          | none => simp [transcribe_audio, hfs] at h
          | some werr =>
            by_cases hw : pyTruthyStr werr
            · simp [transcribe_audio, hfs, hw] at h
            · cases sdk with
              | raised m => simp [transcribe_audio, hfs, hw] at h
              | statusError ea => simp [transcribe_audio, hfs, hw] at h
              | ok text =>
                simp only [transcribe_audio, hfs, hw] at h
                simp at h
                rw [h]

theorem exec_success_summary (options : SummaryOptions) (env : ExecEnv)
    (d : StageData) (h : (execOutcome options env).2 = .ok d) :
    (transcribe_audio env.wav_path env.tenv).2 = .ok d.transcript ∧
      d.summary =
        (if options.summary_style = "Paragraph" then
          paragraphConvert
            (summarize_text env.nltk d.transcript options.num_summary_points)
        else summarize_text env.nltk d.transcript options.num_summary_points) := by
  cases hconv : env.convertServer with
  | error e => simp [execOutcome, hconv] at h
  | ok u =>
    cases htr : (transcribe_audio env.wav_path env.tenv).2 with
    | error m => simp [execOutcome, hconv, htr] at h
    | ok tt =>
      simp only [execOutcome, hconv, htr] at h
      simp only [Except.ok.injEq] at h
      rw [← h]
      exact ⟨rfl, rfl⟩

theorem error_path_results_unchanged (reg : Registry) (id : String)
    (options : SummaryOptions) (env : ExecEnv) (r0 : JobRecord) (m : String)
    (h0 : lookup reg id = some r0)
    (hout : (execOutcome options env).2 = .error m) :
    ∃ rec, lookup (process_audio_task reg id options env).final id = some rec ∧
      rec.results = r0.results := by
  obtain ⟨r1, hl1, e1, _, _, _⟩ :=
    lookup_applyUpdates_some id env.clock (execOutcome options env).1 reg 0 r0 h0
  have hPT : process_audio_task reg id options env =
      exceptBranch (execOutcome options env).1
        (applyUpdates reg id env.clock 0 (execOutcome options env).1) id m env.clock := by
    simp only [process_audio_task, hout]
  have hreg2 : lookup (update_status
        (applyUpdates reg id env.clock 0 (execOutcome options env).1) id 0
        ("Error: " ++ m) (env.clock (execOutcome options env).1.length)) id
      = some { r1 with
          progress := 0,
          message := "Error: " ++ m,
          updated_at := env.clock (execOutcome options env).1.length } := by
    rw [lookup_update_status_self, hl1]
    rfl
  have hse := lookup_setJobError_self _ id m _ hreg2
  rw [hPT]
  simp only [exceptBranch]
  rw [show applyUpdates
      (applyUpdates reg id env.clock 0 (execOutcome options env).1) id env.clock
      (execOutcome options env).1.length [((0 : Int), "Error: " ++ m)] =
    update_status
      (applyUpdates reg id env.clock 0 (execOutcome options env).1) id 0
      ("Error: " ++ m) (env.clock (execOutcome options env).1.length) from rfl]
  rw [hse]
  dsimp only
  refine ⟨{ r1 with
      progress := 0,
      message := "Error: " ++ m,
      updated_at := env.clock (execOutcome options env).1.length,
      error := some m }, ?_, ?_⟩
  · rw [lookup_setEntry_self, hreg2]
    rfl
  · show r1.results = r0.results
    exact e1

theorem setJobComplete_of_some (reg : Registry) (id : String) (r : JobRecord)
    (h : lookup reg id = some r) :
    setJobComplete reg id = .ok (setEntry reg id (fun r => { r with complete := true })) := by
  unfold setJobComplete
  simp [h]

theorem setJobResults_of_some (reg : Registry) (id : String) (r : JobRecord)
    (res : ResultsV) (h : lookup reg id = some r) :
    setJobResults reg id res =
      .ok (setEntry reg id (fun r => { r with results := some res })) := by
  unfold setJobResults
  simp [h]

theorem success_path_final (reg : Registry) (id : String)
    (options : SummaryOptions) (env : ExecEnv) (r0 : JobRecord) (d : StageData)
    (h0 : lookup reg id = some r0)
    (hout : (execOutcome options env).2 = .ok d) :
    ∃ rec, lookup (process_audio_task reg id options env).final id = some rec ∧
      rec.results = some ⟨d.transcript, d.summary, d.sentiment⟩ := by
  obtain ⟨r1, hl1, _, _, _, _⟩ :=
    lookup_applyUpdates_some id env.clock (execOutcome options env).1 reg 0 r0 h0
  have hsc := setJobComplete_of_some
    (applyUpdates reg id env.clock 0 (execOutcome options env).1) id r1 hl1
  have hl2 : lookup (setEntry
      (applyUpdates reg id env.clock 0 (execOutcome options env).1) id
      (fun r => { r with complete := true })) id = some { r1 with complete := true } := by
    rw [lookup_setEntry_self, hl1]
    rfl
  have hsr := setJobResults_of_some _ id _ ⟨d.transcript, d.summary, d.sentiment⟩ hl2
  have hPT : process_audio_task reg id options env =
      ⟨(execOutcome options env).1, none,
        setEntry (setEntry
          (applyUpdates reg id env.clock 0 (execOutcome options env).1) id
          (fun r => { r with complete := true })) id
          (fun r => { r with results := some ⟨d.transcript, d.summary, d.sentiment⟩ })⟩ := by
    simp only [process_audio_task, hout]
    rw [hsc]
    dsimp only
    rw [hsr]
  rw [hPT]
  refine ⟨{ r1 with
      complete := true,
      results := some ⟨d.transcript, d.summary, d.sentiment⟩ }, ?_, ?_⟩
  · show lookup (setEntry _ id _) id = _
    rw [lookup_setEntry_self, hl2]
    rfl
  · rfl

/-- C9 counterexample: (a) a completed job whose transcript contains a
bare bullet character (`"see•item"`) and whose requested style is
Paragraph ends with `results.summary = "see•item"` — the Paragraph
conversion only removes `"• "` (bullet followed by space), so a bullet
marker survives into the paragraph output; (b) under Bullets style a
requested point count of 0 (accepted unvalidated, see C7) still yields
one bullet ("• "), exceeding the requested count. -/
theorem summary_style_violated_cex :
    ((lookup (process_audio_task [("j", freshRecord 0)] "j" ⟨5, "Paragraph"⟩
          bulletEnv).final "j").map
        (fun r => (r.complete, r.results.map (fun res => res.summary)))) =
        some (true, some (toPy "see•item")) ∧
      bulletFree (toPy "see•item") = false ∧
      bulletCount (summarize_text nltkTwo
        (some (toPy "alpha beta. gamma delta.")) 0) = 1 := by
  refine ⟨by decide, by decide, ?_⟩
  decide

/-- C9 amended: for a completed job whose transcript is free of the
bullet character (and whose sentence tokenizer preserves that), and whose
requested point count is at least 3 (the range the options contract
promises but does not enforce — see C7), the summary respects the style:
under Bullets style it carries at most `num_summary_points` bullet
markers, and under Paragraph style it carries no bullet marker at all.
For transcripts containing `•`, or out-of-range point counts, the
original claim fails (see the counterexample). -/
theorem summary_respects_style (reg : Registry) (id : String)
    (options : SummaryOptions) (env : ExecEnv) (r0 : JobRecord)
    (h0 : lookup reg id = some r0) (hres0 : r0.results = none)
    (hnum : 3 ≤ options.num_summary_points)
    (hsdk : ∀ t, env.tenv.sdk = SdkResult.ok (some t) → bulletFree t = true)
    (hsent : ∀ s l, bulletFree s = true → env.nltk.sent_tokenize s = some l →
      ∀ x ∈ l, bulletFree x = true) :
    ∀ rec res, lookup (process_audio_task reg id options env).final id = some rec →
      rec.results = some res →
      (options.summary_style = "Bullets" →
        bulletCount res.summary ≤ options.num_summary_points.toNat) ∧
      (options.summary_style = "Paragraph" → bulletFree res.summary = true) := by
  intro rec res hrec hres
  cases hout : (execOutcome options env).2 with
  | error m =>
    obtain ⟨rec2, hl2, hr2⟩ :=
      error_path_results_unchanged reg id options env r0 m h0 hout
    rw [hrec] at hl2
    cases hl2
    rw [hres0] at hr2
    rw [hr2] at hres
    cases hres
  | ok d =>
    obtain ⟨rec2, hl2, hr2⟩ := success_path_final reg id options env r0 d h0 hout
    rw [hrec] at hl2
    cases hl2
    rw [hr2] at hres
    cases hres
    obtain ⟨htr, hsum⟩ := exec_success_summary options env d hout
    have hsdk2 := transcribe_ok_sdk env.wav_path env.tenv d.transcript htr
    have hbf : ∀ t, d.transcript = some t → bulletFree t = true := by
      intro t ht
      exact hsdk t (by rw [← ht]; exact hsdk2)
    obtain ⟨items, hieq, hibf, hilen⟩ :=
      summarize_shape env.nltk d.transcript options.num_summary_points hnum hbf hsent
    constructor
    · intro hstyle
      have hnp : ¬ options.summary_style = "Paragraph" := by
        rw [hstyle]
        decide
      show bulletCount d.summary ≤ options.num_summary_points.toNat
      rw [hsum, if_neg hnp, hieq, bulletCount_renderBullets items hibf]
      omega
    · intro hstyle
      show bulletFree d.summary = true
      rw [hsum, if_pos hstyle, hieq]
      exact bulletFree_paragraphConvert_render items hibf

/-- Witness for C9's amended theorem on a concrete completed Paragraph-
style run with a bullet-free transcript. -/
theorem summary_respects_style_witness :
    (((⟨5, "Paragraph"⟩ : SummaryOptions).summary_style = "Bullets" →
        bulletCount (⟨some (toPy "hi"), toPy "hi", "S"⟩ : ResultsV).summary
          ≤ ((5 : Int)).toNat) ∧
      ((⟨5, "Paragraph"⟩ : SummaryOptions).summary_style = "Paragraph" →
        bulletFree (⟨some (toPy "hi"), toPy "hi", "S"⟩ : ResultsV).summary = true)) := by
  refine summary_respects_style [("j", freshRecord 0)] "j" ⟨5, "Paragraph"⟩
    successEnv (freshRecord 0) (by decide) rfl (by decide) ?_ ?_
    { (freshRecord 0) with
      progress := 100,
      message := "Processing complete",
      complete := true,
      results := some ⟨some (toPy "hi"), toPy "hi", "S"⟩ }
    ⟨some (toPy "hi"), toPy "hi", "S"⟩ (by decide) rfl
  · intro t ht
    have h2 : SdkResult.ok (some (toPy "hi")) = SdkResult.ok (some t) := ht
    injection h2 with h3
    injection h3 with h4
    rw [← h4]
    decide
  · intro s l hs hl x hx
    have h2 : some [s] = some l := hl
    injection h2 with h3
    rw [← h3] at hx
    rw [List.mem_singleton] at hx
    rw [hx]
    exact hs

end MeetingPipeline
